import Mathlib

/-! # FD-003 storefront frontend: validation, gallery, quantity and table-filter logic

A shallow embedding of the pure logic inside the React components

* `src/pages/auth/Register2.jsx`   (avatar validation, registration schema, submit),
* `src/pages/product/ProductDetail.jsx` (gallery, quantity selector, keyboard navigation),
* `src/pages/product/Product.jsx`  (table search filter, product form, save, edit, delete),

followed by the theorems about them.  Component state (`useState`) is an explicit
record that every handler maps to a new record; calls that leave the component
(network mutations, `alert`, `URL.revokeObjectURL`) are recorded as a list of effects.
JavaScript strings are Lean strings; their `length` is counted in UTF-16 code units.
-/

set_option autoImplicit false

/-! ## JavaScript string helpers -/

namespace Js

/-- The `length` of a JavaScript string: the number of UTF-16 code units. -/
def length (s : String) : Nat :=
  (s.data.map (fun c => if c.toNat < 65536 then 1 else 2)).sum

/-- ASCII lower-casing of a string, used to state case-insensitive comparisons against
ASCII words. -/
def asciiLower (s : String) : String := ⟨s.data.map Char.toLower⟩

/-- The code points that `String.prototype.trim` strips: WhiteSpace and LineTerminator of
ECMAScript (TAB, LF, VT, FF, CR, SP, NBSP, the Unicode space separators, LS, PS, BOM). -/
def isWhiteSpace (c : Char) : Bool :=
  let n := c.toNat
  n == 9 || n == 10 || n == 11 || n == 12 || n == 13 || n == 32 || n == 160 ||
  n == 5760 || (8192 ≤ n && n ≤ 8202) || n == 8232 || n == 8233 || n == 8239 ||
  n == 8287 || n == 12288 || n == 65279

/-- The function `String.prototype.trim`: white space removed from both ends. -/
def trim (s : String) : String :=
  ⟨((s.data.dropWhile isWhiteSpace).reverse.dropWhile isWhiteSpace).reverse⟩

/-- Truthiness of a string: only the empty string is falsy. -/
def truthyStr (s : String) : Bool := !s.data.isEmpty

/-- The function `String.prototype.includes`: `q` occurs in `s` as a contiguous run. -/
def includes (s q : String) : Bool := decide (q.data <:+: s.data)

/-- The function `String.prototype.startsWith`. -/
def startsWith (s p : String) : Bool := decide (p.data <+: s.data)

end Js

/-! ## Register2.jsx -/

namespace Register2

/-- Regular expressions without repetition: what the avatar type pattern is built from. -/
inductive Re where
  | eps
  | chr (c : Char)
  | seq (a b : Re)
  | alt (a b : Re)
  | opt (a : Re)

/-- Canonicalize of ECMAScript for a pattern with flag `i` and without flag `u`: a code
unit is compared through its upper-case form, and a non-ASCII code unit never
canonicalizes to an ASCII one.  Against the ASCII-only pattern used here this is ASCII
upper-casing. -/
def canonicalize (c : Char) : Char := c.toUpper

/-- Backtracking matcher in continuation-passing style, as the ECMAScript semantics of
patterns: `run r s k` tries `r` on a prefix of `s` and hands the rest to `k`. -/
def Re.run : Re → List Char → (List Char → Bool) → Bool
  | .eps, s, k => k s
  | .chr c, s, k =>
    match s with
    | [] => false
    | x :: xs => canonicalize x == canonicalize c && k xs
  | .seq a b, s, k => a.run s (fun r => b.run r k)
  | .alt a b, s, k => a.run s k || b.run s k
  | .opt a, s, k => a.run s k || k s

/-- A literal word of a pattern. -/
def Re.lit : List Char → Re
  | [] => .eps
  | c :: cs => .seq (.chr c) (Re.lit cs)

/-- The words of a pattern, each in canonical (upper-case) form. -/
def Re.lang : Re → List (List Char)
  | .eps => [[]]
  | .chr c => [[canonicalize c]]
  | .seq a b => (a.lang.map (fun u => b.lang.map (fun v => u ++ v))).flatten
  | .alt a b => a.lang ++ b.lang
  | .opt a => a.lang ++ [[]]

/-- The body of `/^image\/(png|jpe?g|webp)$/i`, between its two anchors. -/
def imageTypePattern : Re :=
  .seq (Re.lit "image/".data)
    (.alt (Re.lit "png".data)
      (.alt (.seq (Re.lit "jp".data) (.seq (.opt (.chr 'e')) (.chr 'g')))
        (Re.lit "webp".data)))

/-- The test `/^image\/(png|jpe?g|webp)$/i.test(t)`: `^` pins the match to the start of
the input and `$` (no flag `m`) to its end. -/
def isImageType (t : String) : Bool :=
  imageTypePattern.run t.data (fun r => r.isEmpty)

/-- The MIME types the avatar picker allows, lower-case. -/
def allowedTypes : List String := ["image/png", "image/jpeg", "image/jpg", "image/webp"]

/-- A browser `File`: name, MIME type and size in bytes. -/
structure File where
  name : String
  type : String
  size : Nat
deriving DecidableEq, Repr

/-- The component state of `Register2` that the handlers read and write, with the URL
registry of the browser (`revoked`, `nextBlob`). -/
structure State where
  avatarError : Option String
  image : Option File
  preview : Option String
  submitting : Bool
  revoked : List String
  nextBlob : Nat
deriving DecidableEq, Repr

/-- The initial state: no image, no preview, not submitting. -/
def State.init : State :=
  { avatarError := none, image := none, preview := none, submitting := false,
    revoked := [], nextBlob := 0 }

/-- The function `URL.createObjectURL`: the `n`-th blob URL handed out. -/
def createObjectURL (n : Nat) : String := "blob:" ++ toString n

/-- The handler `handleImagePreview`; `picked` is `e.target.files?.[0]`. -/
def handleImagePreview (st : State) (picked : Option File) : State :=
  match picked with
  | none => st
  | some file =>
    let isImage := isImageType file.type
    let under2MB := decide (file.size ≤ 2 * 1024 * 1024)
    if !isImage then
      { st with avatarError := some "Only JPG, PNG, or WEBP allowed" }
    else if !under2MB then
      { st with avatarError := some "Image must be ≤ 2MB" }
    else
      let revoked :=
        match st.preview with
        | some p =>
          if Js.truthyStr p && Js.startsWith p "blob:" then st.revoked ++ [p] else st.revoked
        | none => st.revoked
      { st with
        avatarError := none
        image := some file
        preview := some (createObjectURL st.nextBlob)
        revoked := revoked
        nextBlob := st.nextBlob + 1 }

/-- The values of the three registered inputs. -/
structure FormValues where
  name : String
  email : String
  password : String
deriving DecidableEq, Repr

/-- The fields of the registration form. -/
inductive Field where
  | name
  | email
  | password
deriving DecidableEq, Repr

/-- A validation issue: the field it is about and its message. -/
structure Issue where
  path : Field
  message : String
deriving DecidableEq, Repr

/-- One check of a string schema with its message. -/
structure StringCheck where
  ok : String → Bool
  message : String

/-- The check `.min(n, message)`: it fails when `length < n`. -/
def minLen (n : Nat) (message : String) : StringCheck :=
  { ok := fun s => !decide (Js.length s < n), message := message }

/-- The check `.nonempty(message)`, which is `.min(1, message)`. -/
def nonempty (message : String) : StringCheck := minLen 1 message

/-- The check `.email(message)`; the pattern of the validation library is a parameter. -/
def emailCheck (emailOk : String → Bool) (message : String) : StringCheck :=
  { ok := emailOk, message := message }

/-- A string schema runs all its checks in order and reports every failing one. -/
def runChecks (path : Field) (checks : List StringCheck) (value : String) : List Issue :=
  (checks.filter (fun c => !c.ok value)).map (fun c => { path := path, message := c.message })

/-- The checks of `schema.name`. -/
def nameChecks : List StringCheck := [nonempty "Name is required"]

/-- The checks of `schema.email`. -/
def emailChecks (emailOk : String → Bool) : List StringCheck :=
  [nonempty "Email is required", emailCheck emailOk "Invalid email"]

/-- The checks of `schema.password`. -/
def passwordChecks : List StringCheck :=
  [nonempty "Password is required", minLen 4 "Password must be at least 4 characters"]

/-- The object `schema`, parsed: the issues of the three fields in the order of its keys. -/
def schema (emailOk : String → Bool) (v : FormValues) : List Issue :=
  runChecks .name nameChecks v.name ++
  runChecks .email (emailChecks emailOk) v.email ++
  runChecks .password passwordChecks v.password

/-- The resolver keeps, for each field, the message of its first issue: this is
`errors.<field>.message`. -/
def fieldError (issues : List Issue) (f : Field) : Option String :=
  (issues.find? (fun i => decide (i.path = f))).map (fun i => i.message)

/-- The response of the upload endpoint. -/
structure FileRes where
  location : Option String
  uri : Option String
deriving DecidableEq, Repr

/-- The payload of `registerUser`: the validated values and the avatar URL. -/
structure SubmitData where
  name : String
  email : String
  password : String
  avatar : Option String
deriving DecidableEq, Repr

/-- What `onSubmit` does to the outside, in order. -/
inductive Effect where
  | setSubmitting (b : Bool)
  | uploadFile (file : File)
  | registerUser (data : SubmitData)
  | consoleError (e : String)
  | alert (message : String)
deriving DecidableEq, Repr

/-- The two mutations as seen by the component: each call resolves or rejects. -/
structure Api where
  uploadFile : File → Except String FileRes
  registerUser : SubmitData → Except String Unit

/-- The expression `a || b` on optional strings. -/
def orElse (a b : Option String) : Option String :=
  match a with
  | some s => if Js.truthyStr s then some s else b
  | none => b

/-- The `try` block of `onSubmit` after `setSubmitting(true)`: the effects made and
whether it finished (`ok`) or threw (`error e`). -/
def submitBody (api : Api) (image : Option File) (data : FormValues) :
    List Effect × Except String Unit :=
  let upload : List Effect × Except String (Option String) :=
    match image with
    | some file =>
      match api.uploadFile file with
      | .ok fileRes => ([.uploadFile file], .ok (orElse fileRes.location fileRes.uri))
      | .error e => ([.uploadFile file], .error e)
    | none => ([], .ok none)
  match upload.2 with
  | .error e => (upload.1, .error e)
  | .ok avatarUrl =>
    let submitData : SubmitData :=
      { name := data.name, email := data.email, password := data.password,
        avatar := avatarUrl }
    match api.registerUser submitData with
    | .ok _ =>
      (upload.1 ++ [.registerUser submitData, .alert "Registered successfully ✅"], .ok ())
    | .error e => (upload.1 ++ [.registerUser submitData], .error e)

/-- The handler `onSubmit`: `try`, `catch`, `finally`. -/
def onSubmit (api : Api) (st : State) (data : FormValues) : State × List Effect :=
  let body := submitBody api st.image data
  let caught : List Effect :=
    match body.2 with
    | .ok _ => []
    | .error e => [.consoleError e, .alert "Registration failed. Please try again."]
  ({ st with submitting := false },
    [.setSubmitting true] ++ body.1 ++ caught ++ [.setSubmitting false])

/-- The wrapper `handleSubmit(onSubmit)` with the schema resolver: the issues of the
values, and `onSubmit` run only when there is none. -/
def handleSubmit (emailOk : String → Bool) (api : Api) (st : State) (v : FormValues) :
    List Issue × State × List Effect :=
  let issues := schema emailOk v
  if issues.isEmpty then
    let r := onSubmit api st v
    (issues, r.1, r.2)
  else (issues, st, [])

/-- Is the effect a call of the upload mutation? -/
def Effect.isUpload : Effect → Bool
  | .uploadFile _ => true
  | _ => false

/-- Is the effect a call of the register mutation? -/
def Effect.isRegister : Effect → Bool
  | .registerUser _ => true
  | _ => false

/-- Is the effect one of the two network calls of `onSubmit`? -/
def Effect.isCall (e : Effect) : Bool := e.isUpload || e.isRegister

/-- The `submitting` flag after a run of effects, from its value before them. -/
def flagAfter (submitting : Bool) (effects : List Effect) : Bool :=
  effects.foldl
    (fun flag e =>
      match e with
      | .setSubmitting b => b
      | _ => flag)
    submitting

end Register2

/-! ## ProductDetail.jsx -/

namespace ProductDetail

/-- A value of the product record as it arrives from the API. -/
inductive JVal where
  | undefined
  | null
  | bool (b : Bool)
  | num (n : Int)
  | str (s : String)
deriving DecidableEq, Repr

/-- Truthiness, the test behind `Boolean(v)` and `if (v)`. -/
def JVal.truthy : JVal → Bool
  | .undefined => false
  | .null => false
  | .bool b => b
  | .num n => n != 0
  | .str s => Js.truthyStr s

/-- The fields of the product record that the gallery reads; `images` is `none` when
`Array.isArray(data.images)` is false. -/
structure ProductData where
  thumbnail : JVal
  images : Option (List JVal)
deriving DecidableEq, Repr

/-- The expression `Array.from(new Set(base))`: values in insertion order, a value that is
already in the set is not inserted again. -/
def setFromArray (base : List JVal) : List JVal :=
  base.foldl (fun acc x => if x ∈ acc then acc else acc ++ [x]) []

/-- The memo `gallery`; `data` is `none` when `!data`. -/
def gallery (data : Option ProductData) : List JVal :=
  match data with
  | none => []
  | some d =>
    let base₀ : List JVal := if d.thumbnail.truthy then [d.thumbnail] else []
    let base : List JVal :=
      match d.images with
      | some images => base₀ ++ images.filter JVal.truthy
      | none => base₀
    (setFromArray base).filter JVal.truthy

/-- A list with the later duplicates removed: the first occurrence of each value stays,
in the original order. -/
def removeLaterDuplicates : List JVal → List JVal
  | [] => []
  | x :: xs => x :: (removeLaterDuplicates xs).filter (fun y => decide (y ≠ x))

/-- The gallery as the specification words it: the thumbnail (if truthy) followed by the
truthy entries of `images`, later duplicates removed. -/
def gallerySpec (d : ProductData) : List JVal :=
  removeLaterDuplicates
    ((if d.thumbnail.truthy then [d.thumbnail] else []) ++
      (d.images.getD []).filter JVal.truthy)

/-- The callback `clampQty` for a given `stock`. -/
def clampQty (stock n : Int) : Int := min (max n 1) (max stock 1)

/-- The handler `onKeyNav` as a map on `activeIdx`, for a gallery of length `len`; `%` of
JavaScript is the truncating remainder. -/
def onKeyNav (len : Nat) (key : String) (i : Int) : Int :=
  if len = 0 then i
  else
    let i₁ := if key = "ArrowRight" then (i + 1).tmod len else i
    if key = "ArrowLeft" then (i₁ - 1 + len).tmod len else i₁

/-- The click on the thumbnail button number `idx`: the buttons exist for
`gallery.length > 1` and for the indices of the gallery only. -/
def onThumbClick (len : Nat) (idx : Nat) (i : Int) : Int :=
  if 1 < len ∧ idx < len then (idx : Int) else i

/-- What the user can do to the gallery. -/
inductive GalleryEvent where
  | key (k : String)
  | click (idx : Nat)
deriving DecidableEq, Repr

/-- One event applied to `activeIdx`. -/
def stepGallery (len : Nat) (i : Int) : GalleryEvent → Int
  | .key k => onKeyNav len k i
  | .click idx => onThumbClick len idx i

/-- A sequence of events from the initial `activeIdx = 0`. -/
def runGallery (len : Nat) (events : List GalleryEvent) : Int :=
  events.foldl (stepGallery len) 0

/-- The updater of `add`: `q => clampQty(q + 1)`. -/
def add (stock q : Int) : Int := clampQty stock (q + 1)

/-- The updater of `sub`: `q => clampQty(q - 1)`. -/
def sub (stock q : Int) : Int := clampQty stock (q - 1)

/-- The class `\d` of a pattern without flag `u`: the ASCII digits. -/
def isDigit (c : Char) : Bool := decide (48 ≤ c.toNat ∧ c.toNat ≤ 57)

/-- The expression `value.replace(/[^\d]/g, "")`: the digits of the text, in order. -/
def onlyDigits (value : String) : List Char := value.data.filter isDigit

/-- The number a string of digits denotes, in base ten. -/
def digitsValue (ds : List Char) : Nat :=
  ds.foldl (fun acc c => 10 * acc + (c.toNat - 48)) 0

/-- How many times `n` is halved before it is below 2^53: the exponent of the double that
holds `n`.  The first argument bounds the number of steps. -/
def binaryExponent : Nat → Nat → Nat
  | 0, _ => 0
  | fuel + 1, n => if n < 2 ^ 53 then 0 else binaryExponent fuel (n / 2) + 1

/-- The double nearest to a natural number, as `Number(...)` gives it for a string of
digits: 53 significant bits, rounded to nearest with ties to even; `none` is
`Infinity`, which is what lies above the largest double `(2^53 - 1) * 2^971`. -/
def toDouble (n : Nat) : Option Nat :=
  let e := binaryExponent n n
  let q := n / 2 ^ e
  let r := n % 2 ^ e
  let up : Bool :=
    decide (2 ^ e < 2 * r) || (decide (2 * r = 2 ^ e) && decide (q % 2 = 1))
  let q' := if up then q + 1 else q
  if 971 < e ∨ (q' = 2 ^ 53 ∧ 970 < e) then none else some (q' * 2 ^ e)

/-- The callback `clampQty` on the result of `Number(...)`; on `Infinity` it is
`Math.min(Infinity, Math.max(stock, 1))`. -/
def clampNumber (stock : Int) : Option Nat → Int
  | some n => clampQty stock n
  | none => max stock 1

/-- The handler `onQtyChange` as the new `qty`, for the text of the input. -/
def onQtyChange (stock : Int) (value : String) : Int :=
  let ds := onlyDigits value
  let n : Option Nat := if ds.isEmpty then some 1 else toDouble (digitsValue ds)
  clampNumber stock n

/-- The quantity selector: the `qty` state and the `stock` derived from the product data. -/
structure QtyState where
  qty : Int
  stock : Int
deriving DecidableEq, Repr

/-- The state on mount: `qty = 1`, and `stock = 0` while there is no product data. -/
def QtyState.init : QtyState := { qty := 1, stock := 0 }

/-- What can happen to the quantity selector: the two buttons, an edit of the input, and
a refresh of the product data that brings a new `stockQuantity`. -/
inductive QtyEvent where
  | add
  | sub
  | edit (value : String)
  | refresh (stockQuantity : Int)
deriving DecidableEq, Repr

/-- One event applied to the quantity selector.  The buttons and the input are disabled
while `!hasStock`; a refresh changes `stock` and leaves `qty` as it is, no effect of the
component touches `qty`. -/
def stepQty (s : QtyState) : QtyEvent → QtyState
  | .add => if 0 < s.stock then { s with qty := add s.stock s.qty } else s
  | .sub => if 0 < s.stock then { s with qty := sub s.stock s.qty } else s
  | .edit value => if 0 < s.stock then { s with qty := onQtyChange s.stock value } else s
  | .refresh stockQuantity => { s with stock := stockQuantity }

/-- A sequence of events from the state on mount. -/
def runQty (events : List QtyEvent) : QtyState := events.foldl stepQty QtyState.init

/-- The label `Max: {Math.max(stock, 1)}`. -/
def maxLabel (s : QtyState) : Int := max s.stock 1

end ProductDetail

/-! ## Product.jsx -/

namespace Product

/-- The field `priceOut` of a row as it arrives from the API. -/
inductive PriceVal where
  | undefined
  | null
  | num (q : ℚ)
  | str (s : String)
deriving DecidableEq

/-- A row of the product table: the fields the search reads.  `name` and `description`
are `none` when they are `null` or `undefined`. -/
structure Row where
  uuid : String
  name : Option String
  description : Option String
  priceOut : PriceVal
deriving DecidableEq

/-- The response of the list query. -/
structure ProductsData where
  content : Option (List Row)
  totalElements : Option Nat
deriving DecidableEq

/-- The two built-ins the search uses that are given by the language: `toLowerCase` and
the conversion of a number to a string. -/
structure Builtins where
  toLowerCase : String → String
  numberToString : ℚ → String

/-- The conversion `String(v)`. -/
def stringOf (b : Builtins) : PriceVal → String
  | .undefined => "undefined"
  | .null => "null"
  | .num q => b.numberToString q
  | .str s => s

/-- The expression `field?.toLowerCase().includes(q)`, `undefined` (falsy) on a missing
field. -/
def optIncludes (b : Builtins) (field : Option String) (q : String) : Bool :=
  match field with
  | some s => Js.includes (b.toLowerCase s) q
  | none => false

/-- The predicate handed to `rows.filter`. -/
def rowMatches (b : Builtins) (q : String) (r : Row) : Bool :=
  optIncludes b r.name q ||
  optIncludes b r.description q ||
  Js.includes (b.toLowerCase (stringOf b r.priceOut)) q

/-- The rows `productsData?.content || []`. -/
def rowsOf (productsData : Option ProductsData) : List Row :=
  match productsData with
  | some d => d.content.getD []
  | none => []

/-- The memo `filteredRows`. -/
def filteredRows (b : Builtins) (productsData : Option ProductsData) (search : String) :
    List Row :=
  let rows := rowsOf productsData
  if !Js.truthyStr (Js.trim search) then rows
  else
    let q := b.toLowerCase search
    rows.filter (rowMatches b q)

/-- A search string is blank when it is empty or made of white space only. -/
def isBlank (search : String) : Prop := ∀ c ∈ search.data, Js.isWhiteSpace c = true

instance isBlank.decidable (search : String) : Decidable (isBlank search) :=
  inferInstanceAs (Decidable (∀ c ∈ search.data, Js.isWhiteSpace c = true))

/-! ### The product form, save, edit and delete -/

/-- A row with also the fields that the edit form reads. -/
structure ProductRow extends Row where
  priceIn : PriceVal
  discount : PriceVal
  thumbnail : Option String
deriving DecidableEq

/-- The two ways a field of a row can be missing.  `Row.name` is `none` for both; where
the text of a missing name is printed, the handler is told which of the two it is. -/
inductive Missing where
  | undefined
  | null
deriving DecidableEq, Repr

/-- The text of a missing value inside a template literal. -/
def Missing.text : Missing → String
  | .undefined => "undefined"
  | .null => "null"

/-- The text of `row.name` inside a template literal: the name itself, and `undefined`
or `null` for a name that is missing in that way. -/
def nameText (missing : Missing) (name : Option String) : String :=
  match name with
  | some n => n
  | none => missing.text

/-- The values the inputs of the product form hold: a text input its string, a number
input its number, `none` while it is empty. -/
structure FormValues where
  name : String
  description : String
  priceIn : Option ℚ
  priceOut : Option ℚ
  discount : Option ℚ
deriving DecidableEq

/-- The form after `reset()`: `useForm()` has no default values, every input is empty. -/
def FormValues.empty : FormValues :=
  { name := "", description := "", priceIn := none, priceOut := none, discount := none }

/-- The registered fields of the product form. -/
inductive FormField where
  | name
  | discount
  | priceIn
  | priceOut
  | description
deriving DecidableEq, Repr

/-- A bound of `register` options: `{ value, message }`. -/
structure Bound where
  value : ℚ
  message : String

/-- The options handed to `register`. -/
structure Rules where
  required : Option String
  min : Option Bound
  max : Option Bound

/-- The options of `register("name", ...)`. -/
def nameRules : Rules := { required := some "Name is required", min := none, max := none }

/-- The options of `register("discount", ...)`. -/
def discountRules : Rules :=
  { required := some "Discount is required",
    min := some { value := 0, message := "Must be 0 or more" },
    max := some { value := 100, message := "Cannot exceed 100%" } }

/-- The options of `register("priceIn", ...)`. -/
def priceInRules : Rules :=
  { required := some "Price In is required",
    min := some { value := 0, message := "Must be positive" }, max := none }

/-- The options of `register("priceOut", ...)`. -/
def priceOutRules : Rules :=
  { required := some "Price Out is required",
    min := some { value := 0, message := "Must be positive" }, max := none }

/-- The options of `register("description", ...)`. -/
def descriptionRules : Rules :=
  { required := some "Description is required", min := none, max := none }

/-- The built-in validation of the form library on a text input: `required` fails on the
empty value. -/
def validateText (rules : Rules) (value : String) : Option String :=
  if value.data.isEmpty then rules.required else none

/-- The built-in validation of the form library on a number input: `required` comes
first and fails on the empty value; then the value is compared with `max` and `min`
(`value > max`, `value < min`), and of the two messages the one of `max` is reported when
`max` is exceeded. -/
def validateNumber (rules : Rules) (value : Option ℚ) : Option String :=
  match value with
  | none => rules.required
  | some x =>
    let exceedMax : Bool :=
      match rules.max with
      | some b => decide (x > b.value)
      | none => false
    let exceedMin : Bool :=
      match rules.min with
      | some b => decide (x < b.value)
      | none => false
    if exceedMax then rules.max.map (fun b => b.message)
    else if exceedMin then rules.min.map (fun b => b.message)
    else none

/-- The message `errors.<field>.message` for the values of the form. -/
def fieldError (v : FormValues) : FormField → Option String
  | .name => validateText nameRules v.name
  | .discount => validateNumber discountRules v.discount
  | .priceIn => validateNumber priceInRules v.priceIn
  | .priceOut => validateNumber priceOutRules v.priceOut
  | .description => validateText descriptionRules v.description

/-- The fields of the form, in the order they are registered. -/
def allFields : List FormField := [.name, .discount, .priceIn, .priceOut, .description]

/-- The form is valid when no field has an error. -/
def formValid (v : FormValues) : Bool :=
  allFields.all (fun f => (fieldError v f).isNone)

/-- The constant `computerSpec` of the payload. -/
structure ComputerSpec where
  processor : String
  ram : String
  storage : String
  gpu : String
  os : String
  screenSize : String
  battery : String
deriving DecidableEq

/-- The argument `createProduct` of the create mutation.  It has no `uuid`. -/
structure CreatePayload where
  name : String
  description : String
  priceIn : ℚ
  priceOut : ℚ
  discount : ℚ
  thumbnail : Option String
  computerSpec : ComputerSpec
  stockQuantity : Nat
  color : List String
  warranty : String
  availability : Bool
  images : List String
  categoryUuid : String
  supplierUuid : String
  brandUuid : String
deriving DecidableEq

/-- The conversion `Number(v)` of the value of a number input: the empty value is 0. -/
def numberOf (v : Option ℚ) : ℚ := v.getD 0

/-- The payload that `handleCreateProduct` builds from the form data and the thumbnail. -/
def payloadOf (data : FormValues) (thumbnailUri : Option String) : CreatePayload :=
  { name := data.name
    description := data.description
    priceIn := numberOf data.priceIn
    priceOut := numberOf data.priceOut
    discount := numberOf data.discount
    thumbnail := thumbnailUri
    computerSpec :=
      { processor := "N/A", ram := "N/A", storage := "N/A", gpu := "N/A", os := "N/A",
        screenSize := "N/A", battery := "N/A" }
    stockQuantity := 0
    color := []
    warranty := ""
    availability := true
    images := []
    categoryUuid := "eb115ca4-a6b2-43f7-aa59-2def7e30dd7b"
    supplierUuid := "fd9d42e3-3afc-43a8-8eb4-7cb4c1c9b411"
    brandUuid := "8620f990-ef33-495c-b38c-236da90c9b46" }

/-- The component state of `Product` and the values of its form. -/
structure State where
  showModal : Bool
  image : Option Register2.File
  preview : Option String
  search : String
  previewProduct : Option Row
  totalData : Nat
  form : FormValues
deriving DecidableEq

/-- The state on mount. -/
def State.init : State :=
  { showModal := false, image := none, preview := none, search := "",
    previewProduct := none, totalData := 10, form := FormValues.empty }

/-- What the handlers of `Product` do to the outside, in order. -/
inductive Effect where
  | confirm (message : String)
  | uploadFile (file : Register2.File)
  | createProduct (payload : CreatePayload)
  | deleteProduct (uuid : String)
  | refetch
  | toastSuccess (message : String)
  | toastError (message : String)
  | toastInfo (message : String)
  | consoleError (e : String)
  | resetForm
  | revokeObjectURL (url : String)
deriving DecidableEq

/-- Is the effect a call of the upload mutation? -/
def Effect.isUpload : Effect → Bool
  | .uploadFile _ => true
  | _ => false

/-- Is the effect a call of the create mutation? -/
def Effect.isCreate : Effect → Bool
  | .createProduct _ => true
  | _ => false

/-- Is the effect a call of the delete mutation? -/
def Effect.isDelete : Effect → Bool
  | .deleteProduct _ => true
  | _ => false

/-- Is the effect a toast of any kind? -/
def Effect.isToast : Effect → Bool
  | .toastSuccess _ => true
  | .toastError _ => true
  | .toastInfo _ => true
  | _ => false

/-- The mutations and the confirm dialog as seen by the component: each mutation
resolves or rejects, the dialog answers yes or no. -/
structure Api where
  uploadFile : Register2.File → Except String Register2.FileRes
  createProduct : CreatePayload → Except String Unit
  deleteProduct : String → Except String Unit
  confirm : String → Bool

/-- The handler `handleModalClose`. -/
def handleModalClose (st : State) : State × List Effect :=
  let revoke : List Effect :=
    match st.preview with
    | some p => if Js.truthyStr p then [.revokeObjectURL p] else []
    | none => []
  ({ st with showModal := false, image := none, preview := none, form := FormValues.empty },
    [.resetForm] ++ revoke)

/-- How the first part of the `try` block of `handleCreateProduct` ends, with the effects
made so far: the upload rejected (the `catch` block is next), the early `return` after
"Please select an image", or the thumbnail to send. -/
inductive ThumbnailStep where
  | thrown (effects : List Effect) (e : String)
  | returned (effects : List Effect)
  | resolved (effects : List Effect) (thumbnailUri : Option String)

/-- The first part of the `try` block of `handleCreateProduct`: where the thumbnail comes
from. -/
def resolveThumbnail (api : Api) (st : State) : ThumbnailStep :=
  match st.image with
  | some file =>
    match api.uploadFile file with
    | .ok fileRes => .resolved [.uploadFile file] fileRes.uri
    | .error e => .thrown [.uploadFile file] e
  | none =>
    match st.preview with
    | some p =>
      if Js.truthyStr p then .resolved [] (some p)
      else .returned [.toastError "Please select an image"]
    | none => .returned [.toastError "Please select an image"]

/-- The `catch` block of `handleCreateProduct`. -/
def catchSave (e : String) : List Effect :=
  [.consoleError e, .toastError "Failed to save product"]

/-- The handler `handleCreateProduct`. -/
def handleCreateProduct (api : Api) (st : State) (data : FormValues) : State × List Effect :=
  match resolveThumbnail api st with
  | .returned effects => (st, effects)
  | .thrown effects e => (st, effects ++ catchSave e)
  | .resolved effects thumbnailUri =>
    let payload := payloadOf data thumbnailUri
    match api.createProduct payload with
    | .ok _ =>
      let closed := handleModalClose st
      (closed.1,
        effects ++ [.createProduct payload, .toastSuccess "Product saved!"] ++ closed.2 ++
          [.refetch])
    | .error e => (st, effects ++ [.createProduct payload] ++ catchSave e)

/-- The file upload fails inside `handleCreateProduct`. -/
def uploadFails (api : Api) (st : State) : Prop :=
  ∃ file e, st.image = some file ∧ api.uploadFile file = .error e

/-- The create call fails inside `handleCreateProduct`, after the thumbnail is there. -/
def createFails (api : Api) (st : State) (data : FormValues) : Prop :=
  ∃ effects thumbnailUri e, resolveThumbnail api st = .resolved effects thumbnailUri ∧
    api.createProduct (payloadOf data thumbnailUri) = .error e

/-- The wrapper `handleSubmit(handleCreateProduct)`: the handler runs on the values of
the form only when every field passes its rules. -/
def handleSubmit (api : Api) (st : State) : State × List Effect :=
  if formValid st.form then handleCreateProduct api st st.form else (st, [])

/-- The expression `v || 0` written into a number input; `readNumber` is how the input
reads a string. -/
def orZero (readNumber : String → Option ℚ) : PriceVal → Option ℚ
  | .undefined => some 0
  | .null => some 0
  | .num q => some q
  | .str s => if Js.truthyStr s then readNumber s else some 0

/-- The handler `handleUpdate`. -/
def handleUpdate (readNumber : String → Option ℚ) (missing : Missing) (st : State)
    (row : ProductRow) : State × List Effect :=
  ({ st with
      form :=
        { name := row.name.getD ""
          description := row.description.getD ""
          priceIn := orZero readNumber row.priceIn
          priceOut := orZero readNumber row.priceOut
          discount := orZero readNumber row.discount }
      preview := match row.thumbnail with
        | some t => if Js.truthyStr t then some t else none
        | none => none
      image := none
      showModal := true },
    [.toastInfo ("Loaded " ++ nameText missing row.name ++ " into form. (Demo Update flow)")])

/-- The question of the confirm dialog of `handleDelete`. -/
def deleteQuestion (missing : Missing) (row : Row) : String :=
  "Delete \"" ++ nameText missing row.name ++ "\"? This cannot be undone."

/-- The handler `handleDelete`. -/
def handleDelete (api : Api) (st : State) (missing : Missing) (row : Row) :
    State × List Effect :=
  if !api.confirm (deleteQuestion missing row) then (st, [.confirm (deleteQuestion missing row)])
  else
    match api.deleteProduct row.uuid with
    | .ok _ =>
      (st, [.confirm (deleteQuestion missing row), .deleteProduct row.uuid,
        .toastSuccess (nameText missing row.name ++ " deleted successfully!"), .refetch])
    | .error _ =>
      (st, [.confirm (deleteQuestion missing row), .deleteProduct row.uuid,
        .toastError ("Failed to delete " ++ nameText missing row.name)])

/-- The edit flow: `handleUpdate(row)`, then the user leaves the form holding `data`,
chooses no new file, and submits. -/
def saveAfterEdit (readNumber : String → Option ℚ) (missing : Missing) (api : Api)
    (st : State) (row : ProductRow) (data : FormValues) : State × List Effect :=
  handleSubmit api { (handleUpdate readNumber missing st row).1 with form := data }

end Product

/-! # Theorems -/

/-! ## Characters and strings -/

namespace Js

theorem toNat_ofNat_small (n : Nat) (h : n < 55296) : (Char.ofNat n).toNat = n := by
  have hv : n.isValidChar := Or.inl h
  simp only [Char.ofNat, hv, dite_true, Char.ofNatAux, Char.toNat]
  simp [UInt32.toNat, BitVec.toNat_ofNatLt]

theorem toNat_inj (c d : Char) : c.toNat = d.toNat ↔ c = d := by
  constructor
  · intro h
    exact Char.ext (UInt32.ext h)
  · rintro rfl; rfl

theorem toNat_toUpper (c : Char) :
    c.toUpper.toNat = if 97 ≤ c.toNat ∧ c.toNat ≤ 122 then c.toNat - 32 else c.toNat := by
  unfold Char.toUpper
  by_cases h : c.toNat ≥ 97 ∧ c.toNat ≤ 122
  · have h' : 97 ≤ c.toNat ∧ c.toNat ≤ 122 := h
    simp only [h, h', and_self, if_true]
    exact toNat_ofNat_small _ (by omega)
  · have h' : ¬ (97 ≤ c.toNat ∧ c.toNat ≤ 122) := h
    simp only [h, h', if_false]

theorem toNat_toLower (c : Char) :
    c.toLower.toNat = if 65 ≤ c.toNat ∧ c.toNat ≤ 90 then c.toNat + 32 else c.toNat := by
  unfold Char.toLower
  by_cases h : c.toNat ≥ 65 ∧ c.toNat ≤ 90
  · have h' : 65 ≤ c.toNat ∧ c.toNat ≤ 90 := h
    simp only [h, h', and_self, if_true]
    exact toNat_ofNat_small _ (by omega)
  · have h' : ¬ (65 ≤ c.toNat ∧ c.toNat ≤ 90) := h
    simp only [h, h', if_false]

/-- Two characters have the same upper-case form exactly when they have the same
lower-case form. -/
theorem toUpper_eq_iff_toLower_eq (c d : Char) :
    c.toUpper = d.toUpper ↔ c.toLower = d.toLower := by
  rw [← toNat_inj, ← toNat_inj, toNat_toUpper, toNat_toUpper, toNat_toLower, toNat_toLower]
  split_ifs <;> omega

theorem map_toUpper_eq_iff (s w : List Char) :
    s.map Char.toUpper = w.map Char.toUpper ↔ s.map Char.toLower = w.map Char.toLower := by
  induction s generalizing w with
  | nil => cases w <;> simp
  | cons x xs ih =>
    cases w with
    | nil => simp
    | cons y ys => simp [ih ys, toUpper_eq_iff_toLower_eq]

end Js

/-! ## Register2: the avatar type pattern -/

namespace Register2

/-- The matcher accepts exactly the inputs that start with a word of the pattern, up to
case, and whose rest the continuation accepts. -/
theorem Re.run_iff (r : Re) : ∀ (s : List Char) (k : List Char → Bool),
    r.run s k = true ↔
      ∃ w ∈ r.lang, ∃ p rest, s = p ++ rest ∧ p.map canonicalize = w ∧ k rest = true := by
  induction r with
  | eps =>
    intro s k
    simp only [Re.run, Re.lang, List.mem_singleton, exists_eq_left, List.map_eq_nil_iff]
    constructor
    · intro h
      exact ⟨[], s, rfl, rfl, h⟩
    · rintro ⟨p, rest, rfl, rfl, h⟩
      exact h
  | chr c =>
    intro s k
    cases s with
    | nil => simp [Re.run, Re.lang]
    | cons x xs =>
      simp only [Re.run, Re.lang, List.mem_singleton, exists_eq_left, Bool.and_eq_true,
        beq_iff_eq]
      constructor
      · rintro ⟨h1, h2⟩
        exact ⟨[x], xs, rfl, by simp [h1], h2⟩
      · rintro ⟨p, rest, hs, hp, hk⟩
        cases p with
        | nil => simp at hp
        | cons y ys =>
          cases ys with
          | nil =>
            simp only [List.singleton_append, List.cons.injEq] at hs
            obtain ⟨rfl, rfl⟩ := hs
            simp only [List.map_cons, List.map_nil, List.cons.injEq, and_true] at hp
            exact ⟨hp, hk⟩
          | cons z zs => simp at hp
  | seq a b iha ihb =>
    intro s k
    simp only [Re.run, Re.lang, iha, ihb, List.mem_flatten, List.mem_map]
    constructor
    · rintro ⟨u, hu, p, rest, rfl, hp, v, hv, p', rest', rfl, hp', hk⟩
      exact ⟨u ++ v, ⟨_, ⟨u, hu, rfl⟩, List.mem_map.2 ⟨v, hv, rfl⟩⟩, p ++ p', rest',
        by simp, by simp [hp, hp'], hk⟩
    · rintro ⟨w, ⟨l, ⟨u, hu, rfl⟩, hw⟩, p, rest, rfl, hp, hk⟩
      obtain ⟨v, hv, rfl⟩ := List.mem_map.1 hw
      obtain ⟨p₁, p₂, rfl, h₁, h₂⟩ := List.map_eq_append_iff.1 hp
      exact ⟨u, hu, p₁, p₂ ++ rest, by simp, h₁, v, hv, p₂, rest, rfl, h₂, hk⟩
  | alt a b iha ihb =>
    intro s k
    simp only [Re.run, Re.lang, Bool.or_eq_true, iha, ihb, List.mem_append]
    constructor
    · rintro (⟨w, hw, h⟩ | ⟨w, hw, h⟩)
      · exact ⟨w, Or.inl hw, h⟩
      · exact ⟨w, Or.inr hw, h⟩
    · rintro ⟨w, hw | hw, h⟩
      · exact Or.inl ⟨w, hw, h⟩
      · exact Or.inr ⟨w, hw, h⟩
  | opt a iha =>
    intro s k
    simp only [Re.run, Re.lang, Bool.or_eq_true, iha, List.mem_append, List.mem_singleton]
    constructor
    · rintro (⟨w, hw, h⟩ | h)
      · exact ⟨w, Or.inl hw, h⟩
      · exact ⟨[], Or.inr rfl, [], s, rfl, rfl, h⟩
    · rintro ⟨w, hw | rfl, p, rest, rfl, hp, hk⟩
      · exact Or.inl ⟨w, hw, p, rest, rfl, hp, hk⟩
      · simp only [List.map_eq_nil_iff] at hp
        subst hp
        exact Or.inr hk

theorem imageTypePattern_lang :
    imageTypePattern.lang =
      ["image/png".data.map Char.toUpper, "image/jpeg".data.map Char.toUpper,
       "image/jpg".data.map Char.toUpper, "image/webp".data.map Char.toUpper] := by
  decide

/-- The pattern test accepts exactly the four allowed MIME types, compared without
regard to ASCII case. -/
theorem isImageType_iff (t : String) :
    isImageType t = true ↔ Js.asciiLower t ∈ allowedTypes := by
  unfold isImageType
  rw [Re.run_iff, imageTypePattern_lang]
  have key : (∃ w ∈ ["image/png".data.map Char.toUpper, "image/jpeg".data.map Char.toUpper,
       "image/jpg".data.map Char.toUpper, "image/webp".data.map Char.toUpper],
        ∃ p rest, t.data = p ++ rest ∧ p.map canonicalize = w ∧ rest.isEmpty = true) ↔
      ∃ w ∈ ["image/png".data.map Char.toUpper, "image/jpeg".data.map Char.toUpper,
       "image/jpg".data.map Char.toUpper, "image/webp".data.map Char.toUpper],
        t.data.map Char.toUpper = w := by
    constructor
    · rintro ⟨w, hw, p, rest, hs, hp, hr⟩
      have : rest = [] := by simpa using hr
      subst this
      refine ⟨w, hw, ?_⟩
      rw [hs, List.append_nil]
      exact hp
    · rintro ⟨w, hw, h⟩
      exact ⟨w, hw, t.data, [], by simp, h, rfl⟩
  rw [key]
  simp only [List.mem_cons, List.mem_singleton, List.not_mem_nil, or_false, exists_eq_or_imp,
    exists_eq_left, Js.map_toUpper_eq_iff, allowedTypes, Js.asciiLower, String.ext_iff]
  rfl

end Register2

/-! ## Register2: the avatar picker -/

namespace Register2

/-- C1: a selected file of an allowed image type that is larger than 2 MB
(2*1024*1024 bytes) gets the avatar error "Image must be ≤ 2MB"; the image and the
preview state stay as they were (nothing but the error changes), so no preview is set
for that file. -/
theorem handleImagePreview_too_large (st : State) (file : File)
    (htype : Js.asciiLower file.type ∈ allowedTypes)
    (hsize : 2 * 1024 * 1024 < file.size) :
    (handleImagePreview st (some file)).avatarError = some "Image must be ≤ 2MB" ∧
    (handleImagePreview st (some file)).image = st.image ∧
    (handleImagePreview st (some file)).preview = st.preview ∧
    handleImagePreview st (some file) = { st with avatarError := some "Image must be ≤ 2MB" } := by
  have h1 : isImageType file.type = true := (isImageType_iff _).2 htype
  have h2 : ¬ file.size ≤ 2 * 1024 * 1024 := by omega
  simp [handleImagePreview, h1, h2]

theorem handleImagePreview_too_large_witness :
    (handleImagePreview State.init (some ⟨"big.png", "image/png", 2097153⟩)).avatarError
        = some "Image must be ≤ 2MB" ∧
    (handleImagePreview State.init (some ⟨"big.png", "image/png", 2097153⟩)).image
        = State.init.image ∧
    (handleImagePreview State.init (some ⟨"big.png", "image/png", 2097153⟩)).preview
        = State.init.preview ∧
    handleImagePreview State.init (some ⟨"big.png", "image/png", 2097153⟩)
        = { State.init with avatarError := some "Image must be ≤ 2MB" } :=
  handleImagePreview_too_large State.init ⟨"big.png", "image/png", 2097153⟩
    (by decide) (by decide)

/-- C2: the avatar picker accepts a selected file (the avatar error is cleared, the image
is that file and the preview is a newly created object URL) if and only if the MIME type
of the file is image/png, image/jpeg, image/jpg or image/webp, compared without regard to
case, and its size is at most 2097152 bytes; a file of exactly 2097152 bytes of such a
type is accepted. -/
theorem handleImagePreview_accepts_iff (st : State) (file : File) :
    ((handleImagePreview st (some file)).avatarError = none ∧
      (handleImagePreview st (some file)).image = some file ∧
      (handleImagePreview st (some file)).preview = some (createObjectURL st.nextBlob)
        ↔ Js.asciiLower file.type ∈ allowedTypes ∧ file.size ≤ 2097152) ∧
    (Js.asciiLower file.type ∈ allowedTypes ∧ file.size = 2097152 →
      (handleImagePreview st (some file)).avatarError = none ∧
      (handleImagePreview st (some file)).image = some file ∧
      (handleImagePreview st (some file)).preview = some (createObjectURL st.nextBlob)) := by
  have main : ((handleImagePreview st (some file)).avatarError = none ∧
      (handleImagePreview st (some file)).image = some file ∧
      (handleImagePreview st (some file)).preview = some (createObjectURL st.nextBlob)
        ↔ Js.asciiLower file.type ∈ allowedTypes ∧ file.size ≤ 2097152) := by
    rw [← isImageType_iff]
    by_cases h1 : isImageType file.type = true
    · by_cases h2 : file.size ≤ 2 * 1024 * 1024
      · have h2' : file.size ≤ 2097152 := h2
        simp [handleImagePreview, h1, h2, h2']
      · have h2' : ¬ file.size ≤ 2097152 := h2
        simp [handleImagePreview, h1, h2, h2']
    · simp [handleImagePreview, h1]
  refine ⟨main, ?_⟩
  rintro ⟨ht, hs⟩
  exact main.2 ⟨ht, by omega⟩

/-- C3: a selected file whose MIME type is none of image/png, image/jpeg, image/jpg,
image/webp (compared without regard to case, as the picker does) gets the avatar error
"Only JPG, PNG, or WEBP allowed" whatever its size, so also when it is larger than 2 MB;
the image and the preview state stay as they were. -/
theorem handleImagePreview_wrong_type (st : State) (file : File)
    (htype : Js.asciiLower file.type ∉ allowedTypes) :
    (handleImagePreview st (some file)).avatarError = some "Only JPG, PNG, or WEBP allowed" ∧
    (handleImagePreview st (some file)).image = st.image ∧
    (handleImagePreview st (some file)).preview = st.preview ∧
    handleImagePreview st (some file) =
      { st with avatarError := some "Only JPG, PNG, or WEBP allowed" } := by
  have h1 : ¬ isImageType file.type = true := fun h => htype ((isImageType_iff _).1 h)
  simp [handleImagePreview, h1]

theorem handleImagePreview_wrong_type_witness :
    (handleImagePreview State.init (some ⟨"anim.gif", "image/gif", 5000000⟩)).avatarError
        = some "Only JPG, PNG, or WEBP allowed" ∧
    (handleImagePreview State.init (some ⟨"anim.gif", "image/gif", 5000000⟩)).image
        = State.init.image ∧
    (handleImagePreview State.init (some ⟨"anim.gif", "image/gif", 5000000⟩)).preview
        = State.init.preview ∧
    handleImagePreview State.init (some ⟨"anim.gif", "image/gif", 5000000⟩) =
      { State.init with avatarError := some "Only JPG, PNG, or WEBP allowed" } :=
  handleImagePreview_wrong_type State.init ⟨"anim.gif", "image/gif", 5000000⟩ (by decide)

end Register2

/-! ## Register2: the registration schema -/

namespace Js

theorem length_eq_zero_iff (s : String) : Js.length s = 0 ↔ s = "" := by
  constructor
  · intro h
    apply String.ext
    cases hs : s.data with
    | nil => rfl
    | cons c cs =>
      exfalso
      simp only [Js.length, hs, List.map_cons, List.sum_cons] at h
      split_ifs at h <;> omega
  · rintro rfl
    rfl

end Js

namespace Register2

theorem runChecks_name (value : String) :
    runChecks .name nameChecks value =
      if value = "" then [⟨.name, "Name is required"⟩] else [] := by
  have h := Js.length_eq_zero_iff value
  by_cases hv : value = ""
  · subst hv
    rfl
  · have : ¬ Js.length value < 1 := by
      intro hlt
      exact hv (h.1 (by omega))
    have h0 : Js.length value ≠ 0 := by omega
    simp [runChecks, nameChecks, nonempty, minLen, h0, hv]

theorem runChecks_password (value : String) :
    runChecks .password passwordChecks value =
      if Js.length value < 1 then
        [⟨.password, "Password is required"⟩,
         ⟨.password, "Password must be at least 4 characters"⟩]
      else if Js.length value < 4 then
        [⟨.password, "Password must be at least 4 characters"⟩]
      else [] := by
  by_cases h1 : Js.length value < 1
  · have h4 : Js.length value < 4 := by omega
    have h0 : Js.length value = 0 := by omega
    simp [runChecks, passwordChecks, nonempty, minLen, h0]
  · have h0 : Js.length value ≠ 0 := by omega
    by_cases h4 : Js.length value < 4
    · simp [runChecks, passwordChecks, nonempty, minLen, h0, h4]
    · simp [runChecks, passwordChecks, nonempty, minLen, h0, h4]

theorem runChecks_email_valid (emailOk : String → Bool) (value : String)
    (hne : value ≠ "") (hok : emailOk value = true) :
    runChecks .email (emailChecks emailOk) value = [] := by
  have : ¬ Js.length value < 1 := by
    intro hlt
    exact hne ((Js.length_eq_zero_iff value).1 (by omega))
  have h0 : Js.length value ≠ 0 := by omega
  simp [runChecks, emailChecks, nonempty, minLen, emailCheck, h0, hok]

/-- C4: a registration form value whose name is the empty string fails validation against
the registration schema with the message "Name is required" on the name field, and
`onSubmit` is not run: the submit makes no call at all, so neither `uploadFile` nor
`registerUser` is called, and the component state is untouched. -/
theorem empty_name_rejected (emailOk : String → Bool) (api : Api) (st : State)
    (v : FormValues) (hname : v.name = "") :
    schema emailOk v ≠ [] ∧
    fieldError (schema emailOk v) .name = some "Name is required" ∧
    (handleSubmit emailOk api st v).1 = schema emailOk v ∧
    (handleSubmit emailOk api st v).2.2 = [] ∧
    (handleSubmit emailOk api st v).2.1 = st ∧
    (∀ f, Effect.uploadFile f ∉ (handleSubmit emailOk api st v).2.2) ∧
    (∀ d, Effect.registerUser d ∉ (handleSubmit emailOk api st v).2.2) := by
  have hs : schema emailOk v =
      ⟨.name, "Name is required"⟩ ::
        (runChecks .email (emailChecks emailOk) v.email ++
          runChecks .password passwordChecks v.password) := by
    simp [schema, runChecks_name, hname]
  have hne : schema emailOk v ≠ [] := by rw [hs]; simp
  have hempty : (schema emailOk v).isEmpty = false := by rw [hs]; rfl
  have hsub : handleSubmit emailOk api st v = (schema emailOk v, st, []) := by
    simp [handleSubmit, hempty]
  refine ⟨hne, ?_, ?_, ?_, ?_, ?_, ?_⟩
  · rw [hs]; simp [fieldError]
  all_goals simp [hsub]

theorem empty_name_rejected_witness :
    schema (fun _ => true) ⟨"", "dara@gmail.com", "qwer"⟩ ≠ [] ∧
    fieldError (schema (fun _ => true) ⟨"", "dara@gmail.com", "qwer"⟩) .name
      = some "Name is required" ∧
    (handleSubmit (fun _ => true) ⟨fun _ => .ok ⟨none, none⟩, fun _ => .ok ()⟩ State.init
      ⟨"", "dara@gmail.com", "qwer"⟩).1 = schema (fun _ => true) ⟨"", "dara@gmail.com", "qwer"⟩ ∧
    (handleSubmit (fun _ => true) ⟨fun _ => .ok ⟨none, none⟩, fun _ => .ok ()⟩ State.init
      ⟨"", "dara@gmail.com", "qwer"⟩).2.2 = [] ∧
    (handleSubmit (fun _ => true) ⟨fun _ => .ok ⟨none, none⟩, fun _ => .ok ()⟩ State.init
      ⟨"", "dara@gmail.com", "qwer"⟩).2.1 = State.init ∧
    (∀ f, Effect.uploadFile f ∉ (handleSubmit (fun _ => true)
      ⟨fun _ => .ok ⟨none, none⟩, fun _ => .ok ()⟩ State.init
      ⟨"", "dara@gmail.com", "qwer"⟩).2.2) ∧
    (∀ d, Effect.registerUser d ∉ (handleSubmit (fun _ => true)
      ⟨fun _ => .ok ⟨none, none⟩, fun _ => .ok ()⟩ State.init
      ⟨"", "dara@gmail.com", "qwer"⟩).2.2) :=
  empty_name_rejected (fun _ => true) ⟨fun _ => .ok ⟨none, none⟩, fun _ => .ok ()⟩ State.init
    ⟨"", "dara@gmail.com", "qwer"⟩ rfl

/-- A valid form value does reach `onSubmit`: with no avatar chosen, `registerUser` is
called with the validated values. -/
theorem valid_form_submits (emailOk : String → Bool) (api : Api) (st : State)
    (v : FormValues) (hvalid : schema emailOk v = []) (himg : st.image = none) :
    Effect.registerUser ⟨v.name, v.email, v.password, none⟩ ∈
      (handleSubmit emailOk api st v).2.2 := by
  simp only [handleSubmit, hvalid, List.isEmpty_nil, if_true, onSubmit, submitBody, himg]
  cases api.registerUser ⟨v.name, v.email, v.password, none⟩ <;> simp

/-- C5: for a registration form value with a valid name and email, the schema accepts the
password if and only if its length is at least 4; a password of length 1 to 3 is reported
with "Password must be at least 4 characters" (its only issue), and the empty password
is reported first with "Password is required". -/
theorem password_min_length (emailOk : String → Bool) (v : FormValues)
    (hname : v.name ≠ "") (hemail : v.email ≠ "") (hok : emailOk v.email = true) :
    (schema emailOk v = [] ↔ 4 ≤ Js.length v.password) ∧
    (1 ≤ Js.length v.password ∧ Js.length v.password ≤ 3 →
      schema emailOk v = [⟨.password, "Password must be at least 4 characters"⟩] ∧
      fieldError (schema emailOk v) .password
        = some "Password must be at least 4 characters") ∧
    (v.password = "" →
      (schema emailOk v).head? = some ⟨.password, "Password is required"⟩ ∧
      fieldError (schema emailOk v) .password = some "Password is required") := by
  have hs : schema emailOk v = runChecks .password passwordChecks v.password := by
    simp [schema, runChecks_name, hname, runChecks_email_valid emailOk v.email hemail hok]
  rw [hs, runChecks_password]
  refine ⟨?_, ?_, ?_⟩
  · split_ifs <;> simp <;> omega
  · rintro ⟨h1, h3⟩
    have a : ¬ Js.length v.password < 1 := by omega
    have b : Js.length v.password < 4 := by omega
    simp [a, b, fieldError]
  · intro h
    have a : Js.length v.password < 1 := by
      have := (Js.length_eq_zero_iff v.password).2 h
      omega
    simp [a, fieldError]

theorem password_min_length_witness :
    (schema (fun _ => true) ⟨"dara", "dara@gmail.com", "qwer"⟩ = [] ↔
      4 ≤ Js.length (FormValues.mk "dara" "dara@gmail.com" "qwer").password) ∧
    (1 ≤ Js.length (FormValues.mk "dara" "dara@gmail.com" "qwer").password ∧
      Js.length (FormValues.mk "dara" "dara@gmail.com" "qwer").password ≤ 3 →
      schema (fun _ => true) ⟨"dara", "dara@gmail.com", "qwer"⟩
        = [⟨.password, "Password must be at least 4 characters"⟩] ∧
      fieldError (schema (fun _ => true) ⟨"dara", "dara@gmail.com", "qwer"⟩) .password
        = some "Password must be at least 4 characters") ∧
    ((FormValues.mk "dara" "dara@gmail.com" "qwer").password = "" →
      (schema (fun _ => true) ⟨"dara", "dara@gmail.com", "qwer"⟩).head?
        = some ⟨.password, "Password is required"⟩ ∧
      fieldError (schema (fun _ => true) ⟨"dara", "dara@gmail.com", "qwer"⟩) .password
        = some "Password is required") :=
  password_min_length (fun _ => true) ⟨"dara", "dara@gmail.com", "qwer"⟩
    (by decide) (by decide) rfl

end Register2

/-! ## ProductDetail: quantity clamp and gallery -/

namespace ProductDetail

/-- C6: for every integer `n` and integer `stock`, `clampQty(n)` is
`min(max(n, 1), max(stock, 1))`, so it lies between 1 and `max(stock, 1)`; it equals `n`
exactly when `n` already lies in that range, and it is 1 whenever `stock <= 0`. -/
theorem clampQty_spec (stock n : Int) :
    clampQty stock n = min (max n 1) (max stock 1) ∧
    1 ≤ clampQty stock n ∧ clampQty stock n ≤ max stock 1 ∧
    (clampQty stock n = n ↔ 1 ≤ n ∧ n ≤ max stock 1) ∧
    (stock ≤ 0 → clampQty stock n = 1) := by
  unfold clampQty
  refine ⟨rfl, ?_, ?_, ?_, ?_⟩
  · simp only [le_min_iff, le_max_iff, le_refl, or_true, and_self]
  · exact min_le_right _ _
  · constructor
    · intro h
      rw [← h]
      exact ⟨by simp only [le_min_iff, le_max_iff, le_refl, or_true, and_self],
        min_le_right _ _⟩
    · rintro ⟨h1, h2⟩
      rw [max_eq_left h1, min_eq_left h2]
  · intro h
    rw [max_eq_right (by omega : stock ≤ 1)]
    exact min_eq_right (le_max_right _ _)

theorem foldl_insert_eq (l : List JVal) : ∀ acc : List JVal,
    l.foldl (fun acc x => if x ∈ acc then acc else acc ++ [x]) acc =
      acc ++ (removeLaterDuplicates l).filter (fun y => decide (y ∉ acc)) := by
  induction l with
  | nil => intro acc; simp [removeLaterDuplicates]
  | cons x xs ih =>
    intro acc
    simp only [List.foldl_cons, removeLaterDuplicates]
    by_cases hx : x ∈ acc
    · simp only [hx, if_true, ih, List.filter_cons, not_true_eq_false, decide_False,
        List.filter_filter, Bool.false_eq_true, if_false]
      congr 1
      apply List.filter_congr
      intro y _
      by_cases hy : y ∈ acc
      · simp [hy]
      · have : y ≠ x := fun h => hy (h ▸ hx)
        simp [hy, this]
    · simp only [hx, if_false, ih, List.filter_cons, not_false_eq_true, decide_True,
        List.filter_filter, if_true, List.append_assoc, List.singleton_append]
      congr 2
      apply List.filter_congr
      intro y _
      by_cases hy : y ∈ acc
      · simp [hy]
      · by_cases hyx : y = x
        · simp [hyx]
        · simp [hy, hyx]

/-- The set built from an array keeps the first occurrence of each value, in order. -/
theorem setFromArray_eq (base : List JVal) :
    setFromArray base = removeLaterDuplicates base := by
  unfold setFromArray
  rw [foldl_insert_eq]
  simp

theorem mem_removeLaterDuplicates (l : List JVal) (x : JVal) :
    x ∈ removeLaterDuplicates l ↔ x ∈ l := by
  induction l with
  | nil => simp [removeLaterDuplicates]
  | cons y ys ih =>
    simp only [removeLaterDuplicates, List.mem_cons, List.mem_filter, ih, decide_eq_true_eq]
    constructor
    · rintro (h | ⟨h, _⟩)
      · exact Or.inl h
      · exact Or.inr h
    · rintro (h | h)
      · exact Or.inl h
      · by_cases hxy : x = y
        · exact Or.inl hxy
        · exact Or.inr ⟨h, hxy⟩

theorem nodup_removeLaterDuplicates (l : List JVal) : (removeLaterDuplicates l).Nodup := by
  induction l with
  | nil => simp [removeLaterDuplicates]
  | cons y ys ih =>
    simp only [removeLaterDuplicates, List.nodup_cons, List.mem_filter, decide_eq_true_eq,
      ne_eq, not_true_eq_false, and_false, not_false_eq_true, true_and]
    exact ih.filter _

/-- The list the gallery is deduplicated from holds truthy values only. -/
theorem gallery_eq_removeLaterDuplicates (d : ProductData) :
    gallery (some d) = gallerySpec d := by
  have hbase : ∀ base : List JVal, (∀ x ∈ base, x.truthy = true) →
      (setFromArray base).filter JVal.truthy = removeLaterDuplicates base := by
    intro base h
    rw [setFromArray_eq]
    apply List.filter_eq_self.2
    intro x hx
    exact h x ((mem_removeLaterDuplicates base x).1 hx)
  obtain ⟨thumbnail, images⟩ := d
  unfold gallery gallerySpec
  cases images with
  | none =>
    simp only [Option.getD_none, List.filter_nil, List.append_nil]
    apply hbase
    intro x hx
    split_ifs at hx with ht
    · simp only [List.mem_singleton] at hx
      rw [hx]; exact ht
    · simp at hx
  | some images =>
    simp only [Option.getD_some]
    apply hbase
    intro x hx
    rcases List.mem_append.1 hx with h | h
    · split_ifs at h with ht
      · simp only [List.mem_singleton] at h
        rw [h]; exact ht
      · simp at h
    · exact (List.mem_filter.1 h).2

/-- C7: the gallery of no product data is empty; otherwise it is the thumbnail (if truthy)
followed by the truthy entries of `images` in their order, later duplicates removed: every
element is truthy, no value occurs twice, a truthy thumbnail is at index 0, and a value is
in the gallery exactly when it is the truthy thumbnail or a truthy element of `images`. -/
theorem gallery_spec :
    gallery none = [] ∧
    ∀ d : ProductData,
      gallery (some d) = gallerySpec d ∧
      (∀ x ∈ gallery (some d), x.truthy = true) ∧
      (gallery (some d)).Nodup ∧
      (d.thumbnail.truthy = true → (gallery (some d))[0]? = some d.thumbnail) ∧
      (∀ x, x ∈ gallery (some d) ↔
        (x = d.thumbnail ∧ x.truthy = true) ∨ (x ∈ d.images.getD [] ∧ x.truthy = true)) := by
  refine ⟨rfl, fun d => ?_⟩
  have hmem : ∀ x, x ∈ gallery (some d) ↔
      (x = d.thumbnail ∧ x.truthy = true) ∨ (x ∈ d.images.getD [] ∧ x.truthy = true) := by
    intro x
    rw [gallery_eq_removeLaterDuplicates, gallerySpec, mem_removeLaterDuplicates,
      List.mem_append, List.mem_filter]
    by_cases ht : d.thumbnail.truthy = true
    · rw [if_pos ht, List.mem_singleton]
      constructor
      · rintro (h | h)
        · exact Or.inl ⟨h, h ▸ ht⟩
        · exact Or.inr h
      · rintro (⟨h, _⟩ | h)
        · exact Or.inl h
        · exact Or.inr h
    · rw [if_neg ht]
      simp only [List.not_mem_nil, false_or]
      constructor
      · intro h; exact Or.inr h
      · rintro (⟨h, h'⟩ | h)
        · exact absurd (h ▸ h') ht
        · exact h
  refine ⟨gallery_eq_removeLaterDuplicates d, ?_, ?_, ?_, hmem⟩
  · intro x hx
    rcases (hmem x).1 hx with h | h
    · exact h.2
    · exact h.2
  · rw [gallery_eq_removeLaterDuplicates]
    exact nodup_removeLaterDuplicates _
  · intro ht
    rw [gallery_eq_removeLaterDuplicates, gallerySpec]
    simp [ht, removeLaterDuplicates]

end ProductDetail

/-! ## ProductDetail: keyboard navigation of the gallery -/

namespace ProductDetail

theorem onKeyNav_right (len : Nat) (i : Int) (hlen : 0 < len) (hi : 0 ≤ i) :
    onKeyNav len "ArrowRight" i = (i + 1) % (len : Int) := by
  have h0 : len ≠ 0 := by omega
  have hne : ¬ ("ArrowRight" = "ArrowLeft") := by decide
  simp only [onKeyNav, h0, if_false, if_true, hne]
  exact Int.tmod_eq_emod (by omega) (by omega)

theorem onKeyNav_left (len : Nat) (i : Int) (hlen : 0 < len) (hi : 0 ≤ i) :
    onKeyNav len "ArrowLeft" i = (i - 1 + (len : Int)) % (len : Int) := by
  have h0 : len ≠ 0 := by omega
  have hne : ¬ ("ArrowLeft" = "ArrowRight") := by decide
  simp only [onKeyNav, h0, if_false, if_true, hne]
  exact Int.tmod_eq_emod (by omega) (by omega)

theorem onKeyNav_other (len : Nat) (key : String) (i : Int)
    (hr : key ≠ "ArrowRight") (hl : key ≠ "ArrowLeft") : onKeyNav len key i = i := by
  simp [onKeyNav, hr, hl]

theorem onKeyNav_empty (key : String) (i : Int) : onKeyNav 0 key i = i := by
  simp [onKeyNav]

theorem onKeyNav_range (len : Nat) (key : String) (i : Int) (hlen : 0 < len)
    (hi : 0 ≤ i ∧ i < len) : 0 ≤ onKeyNav len key i ∧ onKeyNav len key i < len := by
  have hpos : (0 : Int) < (len : Int) := by omega
  by_cases hr : key = "ArrowRight"
  · subst hr
    rw [onKeyNav_right len i hlen hi.1]
    exact ⟨Int.emod_nonneg _ (by omega), Int.emod_lt_of_pos _ hpos⟩
  · by_cases hl : key = "ArrowLeft"
    · subst hl
      rw [onKeyNav_left len i hlen hi.1]
      exact ⟨Int.emod_nonneg _ (by omega), Int.emod_lt_of_pos _ hpos⟩
    · rw [onKeyNav_other len key i hr hl]
      exact hi

theorem stepGallery_range (len : Nat) (i : Int) (ev : GalleryEvent) (hlen : 0 < len)
    (hi : 0 ≤ i ∧ i < len) : 0 ≤ stepGallery len i ev ∧ stepGallery len i ev < len := by
  cases ev with
  | key k => exact onKeyNav_range len k i hlen hi
  | click idx =>
    simp only [stepGallery, onThumbClick]
    split_ifs with h
    · exact ⟨by omega, by omega⟩
    · exact hi

theorem foldl_stepGallery_range (len : Nat) (hlen : 0 < len) (events : List GalleryEvent) :
    ∀ i : Int, 0 ≤ i ∧ i < len →
      0 ≤ events.foldl (stepGallery len) i ∧ events.foldl (stepGallery len) i < len := by
  induction events with
  | nil => intro i hi; exact hi
  | cons ev evs ih =>
    intro i hi
    exact ih _ (stepGallery_range len i ev hlen hi)

/-- C8: for a gallery of length `L > 0` and an active index `i` with `0 <= i < L`,
`onKeyNav` maps `i` to `(i + 1) mod L` on ArrowRight and to `(i - 1 + L) mod L` on
ArrowLeft, both again in `0..L-1`, wrapping from the last image to the first and from the
first to the last; any other key, and any key when the gallery is empty, leaves the index
unchanged.  Hence, from index 0, every sequence of key presses and thumbnail clicks
keeps `0 <= activeIdx < L`. -/
theorem onKeyNav_spec (len : Nat) (i : Int) (hlen : 0 < len) (hi : 0 ≤ i ∧ i < len) :
    onKeyNav len "ArrowRight" i = (i + 1) % (len : Int) ∧
    onKeyNav len "ArrowLeft" i = (i - 1 + (len : Int)) % (len : Int) ∧
    (0 ≤ onKeyNav len "ArrowRight" i ∧ onKeyNav len "ArrowRight" i < len) ∧
    (0 ≤ onKeyNav len "ArrowLeft" i ∧ onKeyNav len "ArrowLeft" i < len) ∧
    onKeyNav len "ArrowRight" ((len : Int) - 1) = 0 ∧
    onKeyNav len "ArrowLeft" 0 = (len : Int) - 1 ∧
    (∀ (key : String) (j : Int), key ≠ "ArrowRight" → key ≠ "ArrowLeft" →
      onKeyNav len key j = j) ∧
    (∀ (key : String) (j : Int), onKeyNav 0 key j = j) ∧
    (∀ events : List GalleryEvent,
      0 ≤ runGallery len events ∧ runGallery len events < len) := by
  have hpos : (0 : Int) < (len : Int) := by omega
  refine ⟨onKeyNav_right len i hlen hi.1, onKeyNav_left len i hlen hi.1,
    onKeyNav_range len _ i hlen hi, onKeyNav_range len _ i hlen hi, ?_, ?_,
    fun key j hr hl => onKeyNav_other len key j hr hl, onKeyNav_empty, ?_⟩
  · rw [onKeyNav_right len _ hlen (by omega)]
    simp
  · rw [onKeyNav_left len 0 hlen (le_refl _)]
    have h : (0 : Int) - 1 + (len : Int) = (len : Int) - 1 := by ring
    rw [h]
    exact Int.emod_eq_of_lt (by omega) (by omega)
  · intro events
    exact foldl_stepGallery_range len hlen events 0 ⟨le_refl _, hpos⟩

theorem onKeyNav_spec_witness :
    onKeyNav 3 "ArrowRight" 2 = (2 + 1) % ((3 : Nat) : Int) ∧
    onKeyNav 3 "ArrowLeft" 2 = (2 - 1 + ((3 : Nat) : Int)) % ((3 : Nat) : Int) ∧
    (0 ≤ onKeyNav 3 "ArrowRight" 2 ∧ onKeyNav 3 "ArrowRight" 2 < (3 : Nat)) ∧
    (0 ≤ onKeyNav 3 "ArrowLeft" 2 ∧ onKeyNav 3 "ArrowLeft" 2 < (3 : Nat)) ∧
    onKeyNav 3 "ArrowRight" (((3 : Nat) : Int) - 1) = 0 ∧
    onKeyNav 3 "ArrowLeft" 0 = ((3 : Nat) : Int) - 1 ∧
    (∀ (key : String) (j : Int), key ≠ "ArrowRight" → key ≠ "ArrowLeft" →
      onKeyNav 3 key j = j) ∧
    (∀ (key : String) (j : Int), onKeyNav 0 key j = j) ∧
    (∀ events : List GalleryEvent,
      0 ≤ runGallery 3 events ∧ runGallery 3 events < (3 : Nat)) :=
  onKeyNav_spec 3 2 (by decide) ⟨by decide, by decide⟩

end ProductDetail

/-! ## Product: the table search -/

namespace Js

theorem dropWhile_all_of_tail_all {α : Type} (p : α → Bool) (l : List α)
    (h : ∀ x ∈ l.dropWhile p, p x = true) : l.dropWhile p = [] := by
  induction l with
  | nil => rfl
  | cons a as ih =>
    by_cases ha : p a = true
    · simp only [List.dropWhile_cons, ha, if_true] at h ⊢
      exact ih h
    · exfalso
      have hd : (a :: as).dropWhile p = a :: as := by simp [List.dropWhile_cons, ha]
      rw [hd] at h
      exact ha (h a (List.mem_cons_self _ _))

/-- The trimmed string is falsy exactly when the string is empty or all white space. -/
theorem truthyStr_trim_eq_false_iff (s : String) :
    truthyStr (trim s) = false ↔ ∀ c ∈ s.data, isWhiteSpace c = true := by
  simp only [truthyStr, trim, Bool.not_eq_false', List.isEmpty_iff, List.reverse_eq_nil_iff]
  constructor
  · intro h
    have h1 : ∀ x ∈ s.data.dropWhile isWhiteSpace, isWhiteSpace x = true := by
      intro x hx
      exact List.dropWhile_eq_nil_iff.1 h x (List.mem_reverse.2 hx)
    exact List.dropWhile_eq_nil_iff.1 (dropWhile_all_of_tail_all _ _ h1)
  · intro h
    rw [List.dropWhile_eq_nil_iff.2 h]
    rfl

end Js

namespace Product

theorem filteredRows_of_not_blank (b : Builtins) (data : Option ProductsData)
    (search : String) (h : ¬ isBlank search) :
    filteredRows b data search =
      (rowsOf data).filter (rowMatches b (b.toLowerCase search)) := by
  have ht : Js.truthyStr (Js.trim search) = true := by
    cases hc : Js.truthyStr (Js.trim search) with
    | true => rfl
    | false => exact absurd ((Js.truthyStr_trim_eq_false_iff search).1 hc) h
  simp [filteredRows, ht]

theorem rowMatches_iff (b : Builtins) (q : String) (r : Row) :
    rowMatches b q r = true ↔
      (∃ n, r.name = some n ∧ q.data <:+: (b.toLowerCase n).data) ∨
      (∃ d, r.description = some d ∧ q.data <:+: (b.toLowerCase d).data) ∨
      q.data <:+: (b.toLowerCase (stringOf b r.priceOut)).data := by
  obtain ⟨uuid, name, description, priceOut⟩ := r
  cases name <;> cases description <;>
    simp [rowMatches, optIncludes, Js.includes, or_assoc]

/-- C9: for a search string that is not blank, `filteredRows` is exactly the rows, in
their original order, for which the lower-cased name, the lower-cased description or the
lower-cased string form of `priceOut` contains the lower-cased, untrimmed search string;
a row with a missing name or description is matched only through its other fields; and
the matching looks at the query and at the row text only through their lower-case
forms. -/
theorem filteredRows_search (b : Builtins) (data : Option ProductsData) (search : String)
    (hsearch : ¬ isBlank search) :
    filteredRows b data search =
      (rowsOf data).filter (rowMatches b (b.toLowerCase search)) ∧
    (∀ r, r ∈ filteredRows b data search ↔ r ∈ rowsOf data ∧
      ((∃ n, r.name = some n ∧
          (b.toLowerCase search).data <:+: (b.toLowerCase n).data) ∨
       (∃ d, r.description = some d ∧
          (b.toLowerCase search).data <:+: (b.toLowerCase d).data) ∨
       (b.toLowerCase search).data <:+: (b.toLowerCase (stringOf b r.priceOut)).data)) ∧
    (filteredRows b data search).Sublist (rowsOf data) ∧
    (∀ r, r.name = none → (r ∈ filteredRows b data search ↔ r ∈ rowsOf data ∧
      ((∃ d, r.description = some d ∧
          (b.toLowerCase search).data <:+: (b.toLowerCase d).data) ∨
       (b.toLowerCase search).data <:+: (b.toLowerCase (stringOf b r.priceOut)).data))) ∧
    (∀ r, r.description = none → (r ∈ filteredRows b data search ↔ r ∈ rowsOf data ∧
      ((∃ n, r.name = some n ∧
          (b.toLowerCase search).data <:+: (b.toLowerCase n).data) ∨
       (b.toLowerCase search).data <:+: (b.toLowerCase (stringOf b r.priceOut)).data))) ∧
    (∀ search₂, ¬ isBlank search₂ → b.toLowerCase search₂ = b.toLowerCase search →
      filteredRows b data search₂ = filteredRows b data search) ∧
    (∀ r r₂ : Row, r.name.map b.toLowerCase = r₂.name.map b.toLowerCase →
      r.description.map b.toLowerCase = r₂.description.map b.toLowerCase →
      b.toLowerCase (stringOf b r.priceOut) = b.toLowerCase (stringOf b r₂.priceOut) →
      rowMatches b (b.toLowerCase search) r = rowMatches b (b.toLowerCase search) r₂) := by
  have hf := filteredRows_of_not_blank b data search hsearch
  have hmem : ∀ r, r ∈ filteredRows b data search ↔ r ∈ rowsOf data ∧
      ((∃ n, r.name = some n ∧
          (b.toLowerCase search).data <:+: (b.toLowerCase n).data) ∨
       (∃ d, r.description = some d ∧
          (b.toLowerCase search).data <:+: (b.toLowerCase d).data) ∨
       (b.toLowerCase search).data <:+: (b.toLowerCase (stringOf b r.priceOut)).data) := by
    intro r
    rw [hf, List.mem_filter, rowMatches_iff]
  refine ⟨hf, hmem, ?_, ?_, ?_, ?_, ?_⟩
  · rw [hf]
    exact List.filter_sublist _
  · intro r hn
    rw [hmem r]
    simp [hn]
  · intro r hd
    rw [hmem r]
    simp [hd]
  · intro search₂ hb heq
    rw [hf, filteredRows_of_not_blank b data search₂ hb, heq]
  · intro r r₂ hn hd hp
    obtain ⟨u, n, d, p⟩ := r
    obtain ⟨u₂, n₂, d₂, p₂⟩ := r₂
    simp only at hn hd hp
    cases n <;> cases n₂ <;> cases d <;> cases d₂ <;>
      simp_all [rowMatches, optIncludes]

end Product

namespace Product

theorem filteredRows_search_witness :
    filteredRows ⟨Js.asciiLower, fun _ => "0"⟩
        (some ⟨some [⟨"u1", some "Laptop", none, .num 0⟩, ⟨"u2", none, some "Phone", .null⟩],
          some 2⟩) "LAP" =
      [⟨"u1", some "Laptop", none, .num 0⟩] :=
  ((filteredRows_search ⟨Js.asciiLower, fun _ => "0"⟩
    (some ⟨some [⟨"u1", some "Laptop", none, .num 0⟩, ⟨"u2", none, some "Phone", .null⟩],
      some 2⟩) "LAP" (by decide)).1).trans (by decide)

/-- C10: for a search string that is empty or made of white space only, `filteredRows` is
the full row list unchanged, same rows in the same order; and when the product data has
no content (no response yet, or a response without `content`) it is the empty list,
whatever the search string. -/
theorem filteredRows_blank (b : Builtins) (search : String) (hblank : isBlank search) :
    (∀ data, filteredRows b data search = rowsOf data) ∧
    (∀ rows total, filteredRows b (some ⟨some rows, total⟩) search = rows) ∧
    (∀ s, filteredRows b none s = []) ∧
    (∀ s total, filteredRows b (some ⟨none, total⟩) s = []) := by
  have ht : Js.truthyStr (Js.trim search) = false :=
    (Js.truthyStr_trim_eq_false_iff search).2 hblank
  have hall : ∀ data, filteredRows b data search = rowsOf data := by
    intro data
    simp [filteredRows, ht]
  refine ⟨hall, ?_, ?_, ?_⟩
  · intro rows total
    rw [hall]
    rfl
  · intro s
    unfold filteredRows
    split_ifs <;> simp [rowsOf]
  · intro s total
    unfold filteredRows
    split_ifs <;> simp [rowsOf]

theorem filteredRows_blank_witness :
    (∀ data, filteredRows ⟨Js.asciiLower, fun _ => "0"⟩ data "  \t " = rowsOf data) ∧
    (∀ rows total,
      filteredRows ⟨Js.asciiLower, fun _ => "0"⟩ (some ⟨some rows, total⟩) "  \t " = rows) ∧
    (∀ s, filteredRows ⟨Js.asciiLower, fun _ => "0"⟩ none s = []) ∧
    (∀ s total, filteredRows ⟨Js.asciiLower, fun _ => "0"⟩ (some ⟨none, total⟩) s = []) :=
  filteredRows_blank ⟨Js.asciiLower, fun _ => "0"⟩ "  \t " (by decide)

end Product

/-! ## Product: the rules of the product form -/

namespace Product

theorem formValid_iff (v : FormValues) :
    formValid v = true ↔ ∀ f, fieldError v f = none := by
  simp only [formValid, allFields, List.all_cons, List.all_nil, Bool.and_true,
    Bool.and_eq_true, Option.isNone_iff_eq_none]
  constructor
  · rintro ⟨h1, h2, h3, h4, h5⟩ f
    cases f <;> assumption
  · intro h
    exact ⟨h _, h _, h _, h _, h _⟩

theorem handleSubmit_of_rejected (api : Api) (st : State)
    (h : ∃ f, fieldError st.form f ≠ none) : handleSubmit api st = (st, []) := by
  have hv : formValid st.form = false := by
    cases hc : formValid st.form with
    | false => rfl
    | true =>
      obtain ⟨f, hf⟩ := h
      exact absurd ((formValid_iff _).1 hc f) hf
  simp [handleSubmit, hv]

theorem handleSubmit_of_valid (api : Api) (st : State)
    (h : ∀ f, fieldError st.form f = none) :
    handleSubmit api st = handleCreateProduct api st st.form := by
  simp [handleSubmit, (formValid_iff _).2 h]

theorem discount_error (value : Option ℚ) :
    validateNumber discountRules value =
      match value with
      | none => some "Discount is required"
      | some d =>
        if d > 100 then some "Cannot exceed 100%"
        else if d < 0 then some "Must be 0 or more" else none := by
  cases value with
  | none => rfl
  | some d =>
    simp only [validateNumber, discountRules, Option.map_some']
    by_cases h1 : d > 100
    · simp [h1]
    · by_cases h2 : d < 0
      · simp [h1, h2]
      · simp [h1, h2]

theorem price_error (req : String) (value : Option ℚ) :
    validateNumber (Rules.mk (some req) (some (Bound.mk 0 "Must be positive")) none) value =
      match value with
      | none => some req
      | some x => if x < 0 then some "Must be positive" else none := by
  cases value with
  | none => rfl
  | some x =>
    simp only [validateNumber, Option.map_some']
    by_cases h : x < 0
    · simp [h]
    · simp [h]

/-- C11: in the product form a discount value is accepted if and only if it is present
and `0 <= discount <= 100`, both bounds included; a value below 0 is rejected with "Must
be 0 or more", a value above 100 with "Cannot exceed 100%", a missing value with
"Discount is required"; and when any field of the form is rejected
`handleCreateProduct` is not run: the submit changes nothing and makes no call, while a
form without a rejected field is handed to `handleCreateProduct`. -/
theorem discount_rule (api : Api) (st : State) :
    (fieldError st.form .discount = none ↔
      ∃ d, st.form.discount = some d ∧ 0 ≤ d ∧ d ≤ 100) ∧
    (∀ d, st.form.discount = some d → d < 0 →
      fieldError st.form .discount = some "Must be 0 or more") ∧
    (∀ d, st.form.discount = some d → 100 < d →
      fieldError st.form .discount = some "Cannot exceed 100%") ∧
    (st.form.discount = none →
      fieldError st.form .discount = some "Discount is required") ∧
    ((∃ f, fieldError st.form f ≠ none) → handleSubmit api st = (st, [])) ∧
    ((∀ f, fieldError st.form f = none) →
      handleSubmit api st = handleCreateProduct api st st.form) := by
  have herr : fieldError st.form .discount = validateNumber discountRules st.form.discount :=
    rfl
  rw [herr, discount_error]
  refine ⟨?_, ?_, ?_, ?_, handleSubmit_of_rejected api st, handleSubmit_of_valid api st⟩
  · cases hd : st.form.discount with
    | none => simp
    | some d =>
      simp only [Option.some.injEq, exists_eq_left']
      by_cases h1 : d > 100
      · simp only [h1, if_true]
        constructor
        · intro h; exact absurd h (by simp)
        · rintro ⟨_, h⟩; exact absurd h (not_le.2 h1)
      · by_cases h2 : d < 0
        · simp only [h1, h2, if_true, if_false]
          constructor
          · intro h; exact absurd h (by simp)
          · rintro ⟨h, _⟩; exact absurd h (not_le.2 h2)
        · simp only [h1, h2, if_false, true_iff]
          exact ⟨not_lt.1 h2, not_lt.1 h1⟩
  · intro d hd hlt
    have h1 : ¬ d > 100 := by
      intro h
      have : (0 : ℚ) < 100 := by norm_num
      exact absurd (lt_trans (lt_trans hlt this) h) (lt_irrefl _)
    simp [hd, h1, hlt]
  · intro d hd hgt
    simp [hd, hgt]
  · intro hd
    simp [hd]

/-- C12 (what the code does at the boundary): the price fields reject a value exactly
when it is below 0, so the price 0, which is not positive, passes the rule whose message
is "Must be positive", and the form is handed to `handleCreateProduct`, which sends the
create call with `priceIn = 0` and `priceOut = 0`. -/
theorem price_zero_accepted :
    fieldError ⟨"Laptop", "A laptop", some 0, some 0, some 10⟩ .priceIn = none ∧
    fieldError ⟨"Laptop", "A laptop", some 0, some 0, some 10⟩ .priceOut = none ∧
    fieldError ⟨"Laptop", "A laptop", some (-1), some (-1), some 10⟩ .priceIn
      = some "Must be positive" ∧
    (handleSubmit ⟨fun _ => .ok ⟨none, none⟩, fun _ => .ok (), fun _ => .ok (), fun _ => true⟩
      { State.init with
        showModal := true, preview := some "https://cdn.example/t.png",
        form := ⟨"Laptop", "A laptop", some 0, some 0, some 10⟩ }).2 =
      [.createProduct
          (payloadOf ⟨"Laptop", "A laptop", some 0, some 0, some 10⟩
            (some "https://cdn.example/t.png")),
        .toastSuccess "Product saved!", .resetForm,
        .revokeObjectURL "https://cdn.example/t.png", .refetch] := by
  decide

/-- The price rules on every value: the field is rejected with "Must be positive" exactly
when the value is below 0. -/
theorem price_rejected_iff (v : FormValues) (x : ℚ) :
    (v.priceIn = some x →
      (fieldError v .priceIn = some "Must be positive" ↔ x < 0) ∧
      (fieldError v .priceIn = none ↔ 0 ≤ x)) ∧
    (v.priceOut = some x →
      (fieldError v .priceOut = some "Must be positive" ↔ x < 0) ∧
      (fieldError v .priceOut = none ↔ 0 ≤ x)) := by
  constructor
  · intro h
    have e : fieldError v .priceIn = validateNumber priceInRules v.priceIn := rfl
    rw [e, priceInRules, price_error "Price In is required", h]
    by_cases hx : x < 0
    · simp [hx]
    · simp [hx, not_lt.1 hx]
  · intro h
    have e : fieldError v .priceOut = validateNumber priceOutRules v.priceOut := rfl
    rw [e, priceOutRules, price_error "Price Out is required", h]
    by_cases hx : x < 0
    · simp [hx]
    · simp [hx, not_lt.1 hx]

end Product

/-! ## Product: saving, editing and deleting -/

namespace Product

theorem handleCreateProduct_no_image (api : Api) (st : State) (data : FormValues)
    (himg : st.image = none) (hprev : st.preview = none) :
    handleCreateProduct api st data = (st, [.toastError "Please select an image"]) := by
  simp [handleCreateProduct, resolveThumbnail, himg, hprev]

theorem handleCreateProduct_upload_ok (api : Api) (st : State) (data : FormValues)
    (file : Register2.File) (res : Register2.FileRes)
    (himg : st.image = some file) (hup : api.uploadFile file = .ok res) :
    (handleCreateProduct api st data).2 =
      match api.createProduct (payloadOf data res.uri) with
      | .ok _ =>
        [.uploadFile file, .createProduct (payloadOf data res.uri),
          .toastSuccess "Product saved!"] ++ (handleModalClose st).2 ++ [.refetch]
      | .error e =>
        [.uploadFile file, .createProduct (payloadOf data res.uri), .consoleError e,
          .toastError "Failed to save product"] := by
  simp only [handleCreateProduct, resolveThumbnail, himg, hup]
  cases api.createProduct (payloadOf data res.uri) <;> simp [catchSave]

theorem handleCreateProduct_preview (api : Api) (st : State) (data : FormValues)
    (p : String) (himg : st.image = none) (hprev : st.preview = some p)
    (hp : Js.truthyStr p = true) :
    (handleCreateProduct api st data).2 =
      match api.createProduct (payloadOf data (some p)) with
      | .ok _ =>
        [.createProduct (payloadOf data (some p)), .toastSuccess "Product saved!",
          .resetForm, .revokeObjectURL p, .refetch]
      | .error e =>
        [.createProduct (payloadOf data (some p)), .consoleError e,
          .toastError "Failed to save product"] := by
  simp only [handleCreateProduct, resolveThumbnail, himg, hprev, hp, if_true]
  cases api.createProduct (payloadOf data (some p)) <;>
    simp [catchSave, handleModalClose, hprev, hp]

theorem mem_handleModalClose (st : State) (e : Effect) (he : e ∈ (handleModalClose st).2) :
    e = .resetForm ∨ ∃ u, e = .revokeObjectURL u := by
  unfold handleModalClose at he
  cases hp : st.preview with
  | none =>
    simp [hp] at he
    exact Or.inl he
  | some p =>
    by_cases ht : Js.truthyStr p = true
    · simp [hp, ht] at he
      rcases he with h | h
      · exact Or.inl h
      · exact Or.inr ⟨p, h⟩
    · simp [hp, ht] at he
      exact Or.inl he

/-- C13: an image is required to save.  When both `image` and `preview` are null,
`handleCreateProduct` shows the error "Please select an image" and returns: the state is
unchanged (the modal stays as it is) and there is no upload, no create call and no
refetch.  When `image` is set and the upload resolves, the thumbnail sent is the `uri`
of the upload response; when only `preview` is set, the thumbnail sent is the preview
value and nothing is uploaded. -/
theorem image_required (api : Api) (st : State) (data : FormValues) :
    (st.image = none → st.preview = none →
      handleCreateProduct api st data = (st, [.toastError "Please select an image"]) ∧
      (∀ e ∈ (handleCreateProduct api st data).2,
        e.isUpload = false ∧ e.isCreate = false ∧ e ≠ .refetch)) ∧
    (∀ file res, st.image = some file → api.uploadFile file = .ok res →
      Effect.createProduct (payloadOf data res.uri) ∈ (handleCreateProduct api st data).2 ∧
      (∀ q, Effect.createProduct q ∈ (handleCreateProduct api st data).2 →
        q.thumbnail = res.uri)) ∧
    (∀ p, st.image = none → st.preview = some p → Js.truthyStr p = true →
      Effect.createProduct (payloadOf data (some p)) ∈ (handleCreateProduct api st data).2 ∧
      (∀ q, Effect.createProduct q ∈ (handleCreateProduct api st data).2 →
        q.thumbnail = some p) ∧
      (∀ e ∈ (handleCreateProduct api st data).2, e.isUpload = false)) := by
  refine ⟨?_, ?_, ?_⟩
  · intro himg hprev
    rw [handleCreateProduct_no_image api st data himg hprev]
    refine ⟨rfl, ?_⟩
    intro e he
    simp only [List.mem_singleton] at he
    subst he
    exact ⟨rfl, rfl, by simp⟩
  · intro file res himg hup
    rw [handleCreateProduct_upload_ok api st data file res himg hup]
    cases api.createProduct (payloadOf data res.uri) with
    | ok _ =>
      refine ⟨by simp, ?_⟩
      intro q hq
      simp only [List.mem_append, List.mem_cons, List.mem_singleton] at hq
      rcases hq with ((h | h | h | h) | h) | h
      · exact absurd h (by simp)
      · rw [Effect.createProduct.inj h]; rfl
      · exact absurd h (by simp)
      · exact absurd h (List.not_mem_nil _)
      · rcases mem_handleModalClose st _ h with h' | ⟨u, h'⟩
        · exact absurd h' (by simp)
        · exact absurd h' (by simp)
      · rcases h with h | h
        · exact absurd h (by simp)
        · exact absurd h (List.not_mem_nil _)
    | error e =>
      refine ⟨by simp, ?_⟩
      intro q hq
      simp only [List.mem_cons, List.mem_singleton] at hq
      rcases hq with h | h | h | h | h
      · exact absurd h (by simp)
      · rw [Effect.createProduct.inj h]; rfl
      · exact absurd h (by simp)
      · exact absurd h (by simp)
      · exact absurd h (List.not_mem_nil _)
  · intro p himg hprev hp
    rw [handleCreateProduct_preview api st data p himg hprev hp]
    cases api.createProduct (payloadOf data (some p)) with
    | ok _ =>
      refine ⟨by simp, ?_, ?_⟩
      · intro q hq
        simp only [List.mem_cons, List.mem_singleton] at hq
        rcases hq with h | h | h | h | h | h
        · rw [Effect.createProduct.inj h]; rfl
        · exact absurd h (by simp)
        · exact absurd h (by simp)
        · exact absurd h (by simp)
        · exact absurd h (by simp)
        · exact absurd h (List.not_mem_nil _)
      · intro e he
        simp only [List.mem_cons, List.mem_singleton] at he
        rcases he with h | h | h | h | h | h
        · subst h; rfl
        · subst h; rfl
        · subst h; rfl
        · subst h; rfl
        · subst h; rfl
        · exact absurd h (List.not_mem_nil _)
    | error e =>
      refine ⟨by simp, ?_, ?_⟩
      · intro q hq
        simp only [List.mem_cons, List.mem_singleton] at hq
        rcases hq with h | h | h | h
        · rw [Effect.createProduct.inj h]; rfl
        · exact absurd h (by simp)
        · exact absurd h (by simp)
        · exact absurd h (List.not_mem_nil _)
      · intro e' he
        simp only [List.mem_cons, List.mem_singleton] at he
        rcases he with h | h | h | h
        · subst h; rfl
        · subst h; rfl
        · subst h; rfl
        · exact absurd h (List.not_mem_nil _)

end Product

namespace Product

/-- C14 (what the code does): after `handleUpdate(row)` a valid save with no new file calls
the create mutation with the values of the form and the thumbnail of the row, so the
trace of the save is not free of create calls: another product is created. -/
theorem edit_then_save_creates :
    (saveAfterEdit (fun _ => none) .undefined
        ⟨fun _ => .ok ⟨none, none⟩, fun _ => .ok (), fun _ => .ok (), fun _ => true⟩
        State.init
        ⟨⟨"p-1", some "Laptop", some "A laptop", .num 900⟩, .num 700, .num 5,
          some "https://cdn.example/t.png"⟩
        ⟨"Laptop", "A laptop", some 700, some 950, some 5⟩).2 =
      [.createProduct
          (payloadOf ⟨"Laptop", "A laptop", some 700, some 950, some 5⟩
            (some "https://cdn.example/t.png")),
        .toastSuccess "Product saved!", .resetForm,
        .revokeObjectURL "https://cdn.example/t.png", .refetch] ∧
    ¬ (∀ e ∈ (saveAfterEdit (fun _ => none) .undefined
        ⟨fun _ => .ok ⟨none, none⟩, fun _ => .ok (), fun _ => .ok (), fun _ => true⟩
        State.init
        ⟨⟨"p-1", some "Laptop", some "A laptop", .num 900⟩, .num 700, .num 5,
          some "https://cdn.example/t.png"⟩
        ⟨"Laptop", "A laptop", some 700, some 950, some 5⟩).2, e.isCreate = false) := by
  decide

theorem saveAfterEdit_eq (readNumber : String → Option ℚ) (missing : Missing) (api : Api) (st : State)
    (row : ProductRow) (t : String) (data : FormValues)
    (ht : row.thumbnail = some t) (htt : Js.truthyStr t = true)
    (hvalid : ∀ f, fieldError data f = none) :
    (saveAfterEdit readNumber missing api st row data).2 =
      match api.createProduct (payloadOf data (some t)) with
      | .ok _ =>
        [.createProduct (payloadOf data (some t)), .toastSuccess "Product saved!",
          .resetForm, .revokeObjectURL t, .refetch]
      | .error e =>
        [.createProduct (payloadOf data (some t)), .consoleError e,
          .toastError "Failed to save product"] := by
  unfold saveAfterEdit
  rw [handleSubmit_of_valid api _ hvalid]
  apply handleCreateProduct_preview
  · simp [handleUpdate]
  · simp [handleUpdate, ht, htt]
  · exact htt

/-- C14, amended: after `handleUpdate(row)` for a row with a thumbnail, a save with valid
data and no new file calls `createProduct`, once and as its first call, with the values
of the form and the thumbnail of the row; nothing is uploaded or deleted, and the calls
made do not depend on `row.uuid`.  The save creates another product (the edit is a demo
flow); when the create call resolves, the trace is the one of a successful create. -/
theorem edit_then_save (readNumber : String → Option ℚ) (missing : Missing) (api : Api) (st : State)
    (row : ProductRow) (t : String) (data : FormValues)
    (ht : row.thumbnail = some t) (htt : Js.truthyStr t = true)
    (hvalid : ∀ f, fieldError data f = none) :
    (saveAfterEdit readNumber missing api st row data).2.head? =
      some (.createProduct (payloadOf data (some t))) ∧
    (saveAfterEdit readNumber missing api st row data).2.countP Effect.isCreate = 1 ∧
    (∀ e ∈ (saveAfterEdit readNumber missing api st row data).2,
      e.isUpload = false ∧ e.isDelete = false) ∧
    (∀ uuid, (saveAfterEdit readNumber missing api st
        { row with uuid := uuid } data).2 = (saveAfterEdit readNumber missing api st row data).2) ∧
    (api.createProduct (payloadOf data (some t)) = .ok () →
      (saveAfterEdit readNumber missing api st row data).2 =
        [.createProduct (payloadOf data (some t)), .toastSuccess "Product saved!",
          .resetForm, .revokeObjectURL t, .refetch]) := by
  have h := saveAfterEdit_eq readNumber missing api st row t data ht htt hvalid
  have hu : ∀ uuid, (saveAfterEdit readNumber missing api st { row with uuid := uuid } data).2 =
      (saveAfterEdit readNumber missing api st row data).2 := by
    intro uuid
    rw [h, saveAfterEdit_eq readNumber missing api st { row with uuid := uuid } t data ht htt hvalid]
  refine ⟨?_, ?_, ?_, hu, ?_⟩
  · rw [h]
    cases api.createProduct (payloadOf data (some t)) <;> rfl
  · rw [h]
    cases api.createProduct (payloadOf data (some t)) <;>
      simp [List.countP_cons, Effect.isCreate]
  · rw [h]
    cases api.createProduct (payloadOf data (some t)) <;>
      simp [Effect.isUpload, Effect.isDelete]
  · intro hok
    rw [h, hok]

theorem edit_then_save_witness :
    (saveAfterEdit (fun _ => none) .undefined
        ⟨fun _ => .ok ⟨none, none⟩, fun _ => .error "503", fun _ => .ok (), fun _ => true⟩
        State.init
        ⟨⟨"p-1", some "Laptop", some "A laptop", .num 900⟩, .num 700, .num 5,
          some "https://cdn.example/t.png"⟩
        ⟨"Laptop", "A laptop", some 700, some 950, some 5⟩).2.head? =
      some (.createProduct (payloadOf ⟨"Laptop", "A laptop", some 700, some 950, some 5⟩
        (some "https://cdn.example/t.png"))) :=
  (edit_then_save (fun _ => none) .undefined
    ⟨fun _ => .ok ⟨none, none⟩, fun _ => .error "503", fun _ => .ok (), fun _ => true⟩
    State.init
    ⟨⟨"p-1", some "Laptop", some "A laptop", .num 900⟩, .num 700, .num 5,
      some "https://cdn.example/t.png"⟩
    "https://cdn.example/t.png"
    ⟨"Laptop", "A laptop", some 700, some 950, some 5⟩ rfl (by decide)
    ((formValid_iff _).1 (by decide))).1

end Product

namespace Product

theorem resolveThumbnail_resolved (api : Api) (st : State) (effects : List Effect)
    (thumbnailUri : Option String)
    (h : resolveThumbnail api st = .resolved effects thumbnailUri) :
    effects = [] ∨ ∃ file, effects = [.uploadFile file] := by
  unfold resolveThumbnail at h
  cases himg : st.image with
  | some file =>
    rw [himg] at h
    cases hup : api.uploadFile file with
    | ok res =>
      simp only [hup, ThumbnailStep.resolved.injEq] at h
      exact Or.inr ⟨file, h.1.symm⟩
    | error e => simp [hup] at h
  | none =>
    rw [himg] at h
    cases hprev : st.preview with
    | none => simp [hprev] at h
    | some p =>
      by_cases hp : Js.truthyStr p = true
      · simp only [hprev, hp, if_true, ThumbnailStep.resolved.injEq] at h
        exact Or.inl h.1.symm
      · simp [hprev, hp] at h

theorem handleCreateProduct_upload_fails (api : Api) (st : State) (data : FormValues)
    (file : Register2.File) (e : String)
    (himg : st.image = some file) (hup : api.uploadFile file = .error e) :
    handleCreateProduct api st data =
      (st, [.uploadFile file, .consoleError e, .toastError "Failed to save product"]) := by
  simp [handleCreateProduct, resolveThumbnail, himg, hup, catchSave]

theorem handleCreateProduct_create_fails (api : Api) (st : State) (data : FormValues)
    (effects : List Effect) (thumbnailUri : Option String) (e : String)
    (hres : resolveThumbnail api st = .resolved effects thumbnailUri)
    (hcr : api.createProduct (payloadOf data thumbnailUri) = .error e) :
    handleCreateProduct api st data =
      (st, effects ++ [.createProduct (payloadOf data thumbnailUri), .consoleError e,
        .toastError "Failed to save product"]) := by
  simp [handleCreateProduct, hres, hcr, catchSave]

/-- C15: when the file upload or the create call fails inside `handleCreateProduct`, the
error notification "Failed to save product" is shown exactly once, no call is made twice
(no retry), `refetch` is not called, nothing reports success, and the state is unchanged
by the failed save (`showModal`, `image`, `preview` and the form values are kept, the form
is not reset); if it is the upload that fails, `createProduct` is never called. -/
theorem save_failure (api : Api) (st : State) (data : FormValues)
    (hfail : uploadFails api st ∨ createFails api st data) :
    (handleCreateProduct api st data).1 = st ∧
    (handleCreateProduct api st data).2.count (.toastError "Failed to save product") = 1 ∧
    (handleCreateProduct api st data).2.countP Effect.isUpload ≤ 1 ∧
    (handleCreateProduct api st data).2.countP Effect.isCreate ≤ 1 ∧
    Effect.refetch ∉ (handleCreateProduct api st data).2 ∧
    Effect.resetForm ∉ (handleCreateProduct api st data).2 ∧
    (∀ m, Effect.toastSuccess m ∉ (handleCreateProduct api st data).2) ∧
    (uploadFails api st →
      (handleCreateProduct api st data).2.countP Effect.isCreate = 0) := by
  have hup : ∀ file e, st.image = some file → api.uploadFile file = .error e →
      (handleCreateProduct api st data).1 = st ∧
      (handleCreateProduct api st data).2.count (.toastError "Failed to save product") = 1 ∧
      (handleCreateProduct api st data).2.countP Effect.isUpload ≤ 1 ∧
      (handleCreateProduct api st data).2.countP Effect.isCreate = 0 ∧
      Effect.refetch ∉ (handleCreateProduct api st data).2 ∧
      Effect.resetForm ∉ (handleCreateProduct api st data).2 ∧
      (∀ m, Effect.toastSuccess m ∉ (handleCreateProduct api st data).2) := by
    intro file e himg herr
    rw [handleCreateProduct_upload_fails api st data file e himg herr]
    refine ⟨rfl, ?_, ?_, ?_, ?_, ?_, ?_⟩
    · simp [List.count_cons]
    · simp [List.countP_cons, Effect.isUpload]
    · simp [List.countP_cons, Effect.isCreate]
    · simp
    · simp
    · intro m; simp
  rcases hfail with ⟨file, e, himg, herr⟩ | ⟨effects, thumbnailUri, e, hres, hcr⟩
  · obtain ⟨h1, h2, h3, h4, h5, h6, h7⟩ := hup file e himg herr
    exact ⟨h1, h2, h3, by omega, h5, h6, h7, fun _ => h4⟩
  · have htrace := handleCreateProduct_create_fails api st data effects thumbnailUri e hres hcr
    have hnoup : ¬ uploadFails api st := by
      rintro ⟨file, e', himg, herr⟩
      simp [resolveThumbnail, himg, herr] at hres
    rw [htrace]
    rcases resolveThumbnail_resolved api st effects thumbnailUri hres with h | ⟨file, h⟩
    · subst h
      refine ⟨rfl, ?_, ?_, ?_, ?_, ?_, ?_, fun h => absurd h hnoup⟩
      · simp [List.count_cons]
      · simp [List.countP_cons, Effect.isUpload]
      · simp [List.countP_cons, Effect.isCreate]
      · simp
      · simp
      · intro m; simp
    · subst h
      refine ⟨rfl, ?_, ?_, ?_, ?_, ?_, ?_, fun h => absurd h hnoup⟩
      · simp [List.count_cons]
      · simp [List.countP_cons, Effect.isUpload]
      · simp [List.countP_cons, Effect.isCreate]
      · simp
      · simp
      · intro m; simp

theorem save_failure_witness :
    (handleCreateProduct
      ⟨fun _ => .error "413", fun _ => .ok (), fun _ => .ok (), fun _ => true⟩
      { State.init with showModal := true, image := some ⟨"t.png", "image/png", 1000⟩ }
      ⟨"Laptop", "A laptop", some 700, some 950, some 5⟩).2.count
        (.toastError "Failed to save product") = 1 :=
  (save_failure
    ⟨fun _ => .error "413", fun _ => .ok (), fun _ => .ok (), fun _ => true⟩
    { State.init with showModal := true, image := some ⟨"t.png", "image/png", 1000⟩ }
    ⟨"Laptop", "A laptop", some 700, some 950, some 5⟩
    (Or.inl ⟨⟨"t.png", "image/png", 1000⟩, "413", rfl, rfl⟩)).2.1

theorem nameText_some (missing : Missing) (n : String) : nameText missing (some n) = n := rfl

/-- C17: `handleDelete` calls `deleteProduct` if and only if the user confirms the
"This cannot be undone" prompt, and then exactly once, with the uuid of the clicked row.
When the user declines, the prompt is all that happens: no delete call, no notification,
no refetch.  `refetch` is called only after a delete that succeeded, last in the trace;
a failed delete shows "Failed to delete <name>", with the name of the clicked row (the
text `undefined` or `null` for a row whose name is missing in that way), and does not
refetch.  The component state is never changed. -/
theorem handleDelete_spec (api : Api) (st : State) (missing : Missing) (row : Row) :
    (∀ u, Effect.deleteProduct u ∈ (handleDelete api st missing row).2 ↔
      api.confirm (deleteQuestion missing row) = true ∧ u = row.uuid) ∧
    (handleDelete api st missing row).2.countP Effect.isDelete =
      (if api.confirm (deleteQuestion missing row) = true then 1 else 0) ∧
    (api.confirm (deleteQuestion missing row) = false →
      (handleDelete api st missing row).2 = [.confirm (deleteQuestion missing row)]) ∧
    (Effect.refetch ∈ (handleDelete api st missing row).2 ↔
      api.confirm (deleteQuestion missing row) = true ∧
        api.deleteProduct row.uuid = .ok ()) ∧
    (api.confirm (deleteQuestion missing row) = true →
      api.deleteProduct row.uuid = .ok () →
      (handleDelete api st missing row).2 =
        [.confirm (deleteQuestion missing row), .deleteProduct row.uuid,
          .toastSuccess (nameText missing row.name ++ " deleted successfully!"),
          .refetch]) ∧
    (∀ e, api.confirm (deleteQuestion missing row) = true →
      api.deleteProduct row.uuid = .error e →
      (handleDelete api st missing row).2 =
        [.confirm (deleteQuestion missing row), .deleteProduct row.uuid,
          .toastError ("Failed to delete " ++ nameText missing row.name)]) ∧
    (handleDelete api st missing row).1 = st ∧
    deleteQuestion missing row =
      "Delete \"" ++ nameText missing row.name ++ "\"? This cannot be undone." ∧
    (∀ n, row.name = some n → nameText missing row.name = n) ∧
    (∀ n e, row.name = some n → api.confirm ("Delete \"" ++ n ++
        "\"? This cannot be undone.") = true → api.deleteProduct row.uuid = .error e →
      (handleDelete api st missing row).2 =
        [.confirm ("Delete \"" ++ n ++ "\"? This cannot be undone."),
          .deleteProduct row.uuid, .toastError ("Failed to delete " ++ n)]) ∧
    (row.name = none → missing = .undefined →
      nameText missing row.name = "undefined") ∧
    (row.name = none → missing = .null → nameText missing row.name = "null") := by
  have hmain : ∀ (m : Missing) (r : Row),
      (∀ u, Effect.deleteProduct u ∈ (handleDelete api st m r).2 ↔
        api.confirm (deleteQuestion m r) = true ∧ u = r.uuid) ∧
      (handleDelete api st m r).2.countP Effect.isDelete =
        (if api.confirm (deleteQuestion m r) = true then 1 else 0) ∧
      (api.confirm (deleteQuestion m r) = false →
        (handleDelete api st m r).2 = [.confirm (deleteQuestion m r)]) ∧
      (Effect.refetch ∈ (handleDelete api st m r).2 ↔
        api.confirm (deleteQuestion m r) = true ∧ api.deleteProduct r.uuid = .ok ()) ∧
      (api.confirm (deleteQuestion m r) = true → api.deleteProduct r.uuid = .ok () →
        (handleDelete api st m r).2 =
          [.confirm (deleteQuestion m r), .deleteProduct r.uuid,
            .toastSuccess (nameText m r.name ++ " deleted successfully!"), .refetch]) ∧
      (∀ e, api.confirm (deleteQuestion m r) = true →
        api.deleteProduct r.uuid = .error e →
        (handleDelete api st m r).2 =
          [.confirm (deleteQuestion m r), .deleteProduct r.uuid,
            .toastError ("Failed to delete " ++ nameText m r.name)]) ∧
      (handleDelete api st m r).1 = st := by
    intro m r
    unfold handleDelete
    cases hc : api.confirm (deleteQuestion m r) with
    | false => simp [Effect.isDelete, List.countP_cons]
    | true =>
      cases hd : api.deleteProduct r.uuid with
      | ok u =>
        cases u
        simp [Effect.isDelete, List.countP_cons]
      | error e => simp [Effect.isDelete, List.countP_cons]
  obtain ⟨h1, h2, h3, h4, h5, h6, h7⟩ := hmain missing row
  refine ⟨h1, h2, h3, h4, h5, h6, h7, rfl, ?_, ?_, ?_, ?_⟩
  · intro n hn
    rw [hn]
    rfl
  · intro n e hn hc hd
    have hq : deleteQuestion missing row =
        "Delete \"" ++ n ++ "\"? This cannot be undone." := by
      simp [deleteQuestion, hn, nameText]
    have ht : nameText missing row.name = n := by rw [hn]; rfl
    rw [← hq] at hc
    rw [h6 e hc hd, hq, ht]
  · intro hn hm
    rw [hn, hm]
    rfl
  · intro hn hm
    rw [hn, hm]
    rfl

/-- A failed delete of the row named Mac, and of a row whose name is `null`. -/
theorem handleDelete_example :
    (handleDelete ⟨fun _ => .ok ⟨none, none⟩, fun _ => .ok (), fun _ => .error "500",
        fun _ => true⟩ State.init .undefined ⟨"u-7", some "Mac", none, .null⟩).2 =
      [.confirm "Delete \"Mac\"? This cannot be undone.", .deleteProduct "u-7",
        .toastError "Failed to delete Mac"] ∧
    (handleDelete ⟨fun _ => .ok ⟨none, none⟩, fun _ => .ok (), fun _ => .error "500",
        fun _ => true⟩ State.init .null ⟨"u-8", none, none, .null⟩).2 =
      [.confirm "Delete \"null\"? This cannot be undone.", .deleteProduct "u-8",
        .toastError "Failed to delete null"] := by
  decide

end Product

/-! ## Register2: failures of the submit -/

namespace Register2

/-- C16: with an avatar image set, when the file upload fails `onSubmit` never calls
`registerUser`, shows the alert "Registration failed. Please try again." and does not show
the success alert; when the upload succeeds but `registerUser` fails, the same failure
alert is shown, the success alert is not, and each of the two calls is made once only
(no retry). -/
theorem onSubmit_failure (api : Api) (st : State) (data : FormValues) (file : File)
    (himg : st.image = some file) :
    (∀ e, api.uploadFile file = .error e →
      (onSubmit api st data).2 =
        [.setSubmitting true, .uploadFile file, .consoleError e,
          .alert "Registration failed. Please try again.", .setSubmitting false] ∧
      (onSubmit api st data).2.countP Effect.isRegister = 0 ∧
      (onSubmit api st data).2.countP Effect.isUpload = 1 ∧
      (onSubmit api st data).2.count (.alert "Registration failed. Please try again.") = 1 ∧
      Effect.alert "Registered successfully ✅" ∉ (onSubmit api st data).2) ∧
    (∀ res e, api.uploadFile file = .ok res →
      api.registerUser ⟨data.name, data.email, data.password,
        orElse res.location res.uri⟩ = .error e →
      (onSubmit api st data).2 =
        [.setSubmitting true, .uploadFile file,
          .registerUser ⟨data.name, data.email, data.password,
            orElse res.location res.uri⟩,
          .consoleError e, .alert "Registration failed. Please try again.",
          .setSubmitting false] ∧
      (onSubmit api st data).2.countP Effect.isRegister = 1 ∧
      (onSubmit api st data).2.countP Effect.isUpload = 1 ∧
      (onSubmit api st data).2.count (.alert "Registration failed. Please try again.") = 1 ∧
      Effect.alert "Registered successfully ✅" ∉ (onSubmit api st data).2) := by
  constructor
  · intro e hup
    have ht : (onSubmit api st data).2 =
        [.setSubmitting true, .uploadFile file, .consoleError e,
          .alert "Registration failed. Please try again.", .setSubmitting false] := by
      simp [onSubmit, submitBody, himg, hup]
    rw [ht]
    refine ⟨rfl, ?_, ?_, ?_, ?_⟩
    · simp [List.countP_cons, Effect.isRegister]
    · simp [List.countP_cons, Effect.isUpload]
    · simp [List.count_cons]
    · simp
  · intro res e hup hreg
    have ht : (onSubmit api st data).2 =
        [.setSubmitting true, .uploadFile file,
          .registerUser ⟨data.name, data.email, data.password,
            orElse res.location res.uri⟩,
          .consoleError e, .alert "Registration failed. Please try again.",
          .setSubmitting false] := by
      simp [onSubmit, submitBody, himg, hup, hreg]
    rw [ht]
    refine ⟨rfl, ?_, ?_, ?_, ?_⟩
    · simp [List.countP_cons, Effect.isRegister]
    · simp [List.countP_cons, Effect.isUpload]
    · simp [List.count_cons]
    · simp

theorem onSubmit_failure_witness :
    (onSubmit ⟨fun _ => .error "413", fun _ => .ok ()⟩
      { State.init with image := some ⟨"me.png", "image/png", 1000⟩ }
      ⟨"dara", "dara@gmail.com", "qwer"⟩).2 =
        [.setSubmitting true, .uploadFile ⟨"me.png", "image/png", 1000⟩, .consoleError "413",
          .alert "Registration failed. Please try again.", .setSubmitting false] :=
  ((onSubmit_failure ⟨fun _ => .error "413", fun _ => .ok ()⟩
    { State.init with image := some ⟨"me.png", "image/png", 1000⟩ }
    ⟨"dara", "dara@gmail.com", "qwer"⟩ ⟨"me.png", "image/png", 1000⟩ rfl).1 "413" rfl).1

end Register2

/-! ## ProductDetail: the quantity selector -/

namespace ProductDetail

theorem clampQty_range (stock n : Int) :
    1 ≤ clampQty stock n ∧ clampQty stock n ≤ max stock 1 := by
  unfold clampQty
  exact ⟨by simp only [le_min_iff, le_max_iff, le_refl, or_true, and_self],
    min_le_right _ _⟩

theorem clampQty_of_range (stock n : Int) (h1 : 1 ≤ n) (h2 : n ≤ max stock 1) :
    clampQty stock n = n := by
  unfold clampQty
  rw [max_eq_left h1, min_eq_left h2]

theorem clampNumber_range (stock : Int) (n : Option Nat) :
    1 ≤ clampNumber stock n ∧ clampNumber stock n ≤ max stock 1 := by
  cases n with
  | none => exact ⟨le_max_right _ _, le_refl _⟩
  | some k => exact clampQty_range stock k

theorem onQtyChange_range (stock : Int) (value : String) :
    1 ≤ onQtyChange stock value ∧ onQtyChange stock value ≤ max stock 1 :=
  clampNumber_range stock _

/-- With the stock fixed, the handlers of the quantity selector keep `qty` between 1 and
the displayed maximum. -/
theorem stepQty_range_of_not_refresh (s : QtyState) (ev : QtyEvent)
    (hev : ∀ k, ev ≠ .refresh k)
    (h : 1 ≤ s.qty ∧ s.qty ≤ maxLabel s) :
    1 ≤ (stepQty s ev).qty ∧ (stepQty s ev).qty ≤ maxLabel (stepQty s ev) ∧
    (stepQty s ev).stock = s.stock := by
  cases ev with
  | add =>
    simp only [stepQty]
    split_ifs
    · exact ⟨(clampQty_range _ _).1, (clampQty_range _ _).2, rfl⟩
    · exact ⟨h.1, h.2, rfl⟩
  | sub =>
    simp only [stepQty]
    split_ifs
    · exact ⟨(clampQty_range _ _).1, (clampQty_range _ _).2, rfl⟩
    · exact ⟨h.1, h.2, rfl⟩
  | edit value =>
    simp only [stepQty]
    split_ifs
    · exact ⟨(onQtyChange_range _ _).1, (onQtyChange_range _ _).2, rfl⟩
    · exact ⟨h.1, h.2, rfl⟩
  | refresh k => exact absurd rfl (hev k)

/-- C18 (what the code does): the product loads with `stockQuantity = 5`, the user presses
`+` four times, and a refresh brings `stockQuantity = 2`.  The quantity is still 5 while
the displayed maximum is 2: a refresh changes `stock` and nothing clamps `qty` again. -/
theorem qty_exceeds_max_after_refresh :
    runQty [.refresh 5, .add, .add, .add, .add, .refresh 2] = { qty := 5, stock := 2 } ∧
    maxLabel (runQty [.refresh 5, .add, .add, .add, .add, .refresh 2]) = 2 ∧
    ¬ ((runQty [.refresh 5, .add, .add, .add, .add, .refresh 2]).qty ≤
        maxLabel (runQty [.refresh 5, .add, .add, .add, .add, .refresh 2])) := by
  decide

/-- C19: for every stock and every `qty` with `1 <= qty <= max(stock, 1)`, `add` yields
`qty + 1` when `qty < max(stock, 1)` and leaves `qty` unchanged when
`qty = max(stock, 1)`; `sub` yields `qty - 1` when `qty > 1` and leaves `qty` unchanged
when `qty = 1`. -/
theorem add_sub_spec (stock qty : Int) (h : 1 ≤ qty ∧ qty ≤ max stock 1) :
    (qty < max stock 1 → add stock qty = qty + 1) ∧
    (qty = max stock 1 → add stock qty = qty) ∧
    (1 < qty → sub stock qty = qty - 1) ∧
    (qty = 1 → sub stock qty = qty) := by
  refine ⟨?_, ?_, ?_, ?_⟩
  · intro hlt
    exact clampQty_of_range stock (qty + 1) (by omega) (by omega)
  · intro heq
    unfold add clampQty
    rw [max_eq_left (by omega : (1 : Int) ≤ qty + 1), ← heq]
    exact min_eq_right (by omega)
  · intro hgt
    exact clampQty_of_range stock (qty - 1) (by omega) (by omega)
  · intro heq
    subst heq
    unfold sub clampQty
    rw [max_eq_right (by omega : (1 : Int) - 1 ≤ 1)]
    exact min_eq_left (le_max_right _ _)

theorem add_sub_spec_witness :
    (3 < max (5 : Int) 1 → add 5 3 = 3 + 1) ∧
    (3 = max (5 : Int) 1 → add 5 3 = 3) ∧
    ((1 : Int) < 3 → sub 5 3 = 3 - 1) ∧
    ((3 : Int) = 1 → sub 5 3 = 3) :=
  add_sub_spec 5 3 ⟨by decide, by decide⟩

/-! ## ProductDetail: round trips of the keyboard navigation -/

theorem succ_emod (len : Nat) (i : Int) (hi : 0 ≤ i ∧ i < len) :
    (i + 1) % (len : Int) = if i + 1 = len then 0 else i + 1 := by
  split_ifs with h
  · rw [h]; exact Int.emod_self
  · exact Int.emod_eq_of_lt (by omega) (by omega)

theorem pred_emod (len : Nat) (i : Int) (hi : 0 ≤ i ∧ i < len) :
    (i - 1 + (len : Int)) % (len : Int) = if i = 0 then (len : Int) - 1 else i - 1 := by
  split_ifs with h
  · subst h
    have e : (0 : Int) - 1 + (len : Int) = (len : Int) - 1 := by ring
    rw [e]
    exact Int.emod_eq_of_lt (by omega) (by omega)
  · rw [Int.add_emod_self]
    exact Int.emod_eq_of_lt (by omega) (by omega)

theorem iterate_right (len : Nat) (hlen : 0 < len) (i : Int) (hi : 0 ≤ i) (k : Nat) :
    Nat.iterate (onKeyNav len "ArrowRight") k i = (i + (k : Int)) % (len : Int) ∨ k = 0 := by
  induction k with
  | zero => exact Or.inr rfl
  | succ k ih =>
    left
    rw [Function.iterate_succ_apply']
    rcases ih with h | h
    · rw [h, onKeyNav_right len _ hlen (Int.emod_nonneg _ (by omega)), Int.emod_add_emod]
      push_cast
      ring_nf
    · subst h
      simp only [Function.iterate_zero, id_eq]
      rw [onKeyNav_right len i hlen hi]
      push_cast
      ring_nf

/-- C20: for a non-empty gallery of length `L` and an index `i` with `0 <= i < L`, pressing
ArrowRight and then ArrowLeft, or ArrowLeft and then ArrowRight, returns the active index
to `i`, and so does pressing ArrowRight `L` times. -/
theorem onKeyNav_round_trip (len : Nat) (i : Int) (hlen : 0 < len)
    (hi : 0 ≤ i ∧ i < len) :
    onKeyNav len "ArrowLeft" (onKeyNav len "ArrowRight" i) = i ∧
    onKeyNav len "ArrowRight" (onKeyNav len "ArrowLeft" i) = i ∧
    Nat.iterate (onKeyNav len "ArrowRight") len i = i := by
  have hr := onKeyNav_range len "ArrowRight" i hlen hi
  have hl := onKeyNav_range len "ArrowLeft" i hlen hi
  refine ⟨?_, ?_, ?_⟩
  · rw [onKeyNav_left len _ hlen hr.1, pred_emod len _ hr]
    rw [onKeyNav_right len i hlen hi.1, succ_emod len i hi]
    split_ifs <;> omega
  · rw [onKeyNav_right len _ hlen hl.1, succ_emod len _ hl]
    rw [onKeyNav_left len i hlen hi.1, pred_emod len i hi]
    split_ifs <;> omega
  · rcases iterate_right len hlen i hi.1 len with h | h
    · rw [h, Int.add_emod_self]
      exact Int.emod_eq_of_lt hi.1 hi.2
    · omega

theorem onKeyNav_round_trip_witness :
    onKeyNav 3 "ArrowLeft" (onKeyNav 3 "ArrowRight" 2) = 2 ∧
    onKeyNav 3 "ArrowRight" (onKeyNav 3 "ArrowLeft" 2) = 2 ∧
    Nat.iterate (onKeyNav 3 "ArrowRight") 3 2 = 2 :=
  onKeyNav_round_trip 3 2 (by decide) ⟨by decide, by decide⟩

end ProductDetail

/-! ## Register2: the submitting flag -/

namespace Register2

theorem flagAfter_of_no_set (effects : List Effect) (flag : Bool)
    (h : ∀ e ∈ effects, ∀ b, e ≠ .setSubmitting b) : flagAfter flag effects = flag := by
  induction effects generalizing flag with
  | nil => rfl
  | cons e es ih =>
    have he : ∀ b, e ≠ .setSubmitting b := h e (List.mem_cons_self _ _)
    have hes : ∀ x ∈ es, ∀ b, x ≠ .setSubmitting b :=
      fun x hx => h x (List.mem_cons_of_mem _ hx)
    have hstep : flagAfter flag (e :: es) = flagAfter flag es := by
      cases e with
      | setSubmitting b => exact absurd rfl (he b)
      | uploadFile f => rfl
      | registerUser d => rfl
      | consoleError m => rfl
      | alert m => rfl
    rw [hstep]
    exact ih flag hes

theorem flagAfter_cons_set (flag b : Bool) (effects : List Effect) :
    flagAfter flag (.setSubmitting b :: effects) = flagAfter b effects := rfl

theorem flagAfter_append (flag : Bool) (xs ys : List Effect) :
    flagAfter flag (xs ++ ys) = flagAfter (flagAfter flag xs) ys := by
  simp [flagAfter, List.foldl_append]

/-- The middle of a run of `onSubmit`: what happens between `setSubmitting(true)` and
`setSubmitting(false)`. -/
theorem onSubmit_trace (api : Api) (st : State) (data : FormValues) :
    ∃ mid : List Effect,
      (onSubmit api st data).2 = .setSubmitting true :: (mid ++ [.setSubmitting false]) ∧
      (∀ e ∈ mid, ∀ b, e ≠ .setSubmitting b) ∧
      mid.countP Effect.isRegister ≤ 1 ∧ mid.countP Effect.isUpload ≤ 1 ∧
      (∀ d, Effect.registerUser d ∈ mid →
        d.name = data.name ∧ d.email = data.email ∧ d.password = data.password ∧
        (st.image = none → d.avatar = none) ∧
        (∀ file res, st.image = some file → api.uploadFile file = .ok res →
          d.avatar = orElse res.location res.uri)) ∧
      ((st.image = none ∨ ∃ file res, st.image = some file ∧ api.uploadFile file = .ok res) →
        mid.countP Effect.isRegister = 1) := by
  refine ⟨(submitBody api st.image data).1 ++
    (match (submitBody api st.image data).2 with
      | .ok _ => []
      | .error e => [.consoleError e, .alert "Registration failed. Please try again."]),
    by simp [onSubmit], ?_⟩
  cases himg : st.image with
  | none =>
    cases hreg : api.registerUser ⟨data.name, data.email, data.password, none⟩ with
    | ok u =>
      simp [submitBody, hreg, List.countP_cons, Effect.isRegister, Effect.isUpload]
    | error e =>
      simp [submitBody, hreg, List.countP_cons, Effect.isRegister, Effect.isUpload]
  | some file =>
    cases hup : api.uploadFile file with
    | error e =>
      simp [submitBody, hup, List.countP_cons, Effect.isRegister, Effect.isUpload]
    | ok res =>
      cases hreg : api.registerUser
          ⟨data.name, data.email, data.password, orElse res.location res.uri⟩ with
      | ok u =>
        simp [submitBody, hup, hreg, List.countP_cons, Effect.isRegister, Effect.isUpload]
        intro f r hf hu
        subst hf
        rw [hup] at hu
        cases hu
        rfl
      | error e =>
        simp [submitBody, hup, hreg, List.countP_cons, Effect.isRegister, Effect.isUpload]
        intro f r hf hu
        subst hf
        rw [hup] at hu
        cases hu
        rfl

/-- C23: in every run of `onSubmit`, whether the upload fails, the registration fails or
both succeed, the run starts with `setSubmitting(true)` and ends with
`setSubmitting(false)`: the flag is true at each of the two calls and false when
`onSubmit` finishes, so the submit button is not left disabled.  `registerUser` is called
at most once (exactly once unless the upload fails), with the validated form data and
`avatar` the `location` of the upload result, or its `uri` when `location` is falsy, or
undefined when no image was chosen. -/
theorem onSubmit_submitting (api : Api) (st : State) (data : FormValues) :
    (onSubmit api st data).1.submitting = false ∧
    flagAfter st.submitting (onSubmit api st data).2 = false ∧
    (onSubmit api st data).2.head? = some (.setSubmitting true) ∧
    (onSubmit api st data).2.getLast? = some (.setSubmitting false) ∧
    (∀ pre e post, (onSubmit api st data).2 = pre ++ e :: post → e.isCall = true →
      flagAfter st.submitting pre = true) ∧
    (onSubmit api st data).2.countP Effect.isRegister ≤ 1 ∧
    (onSubmit api st data).2.countP Effect.isUpload ≤ 1 ∧
    ((st.image = none ∨ ∃ file res, st.image = some file ∧ api.uploadFile file = .ok res) →
      (onSubmit api st data).2.countP Effect.isRegister = 1) ∧
    (∀ d, Effect.registerUser d ∈ (onSubmit api st data).2 →
      d.name = data.name ∧ d.email = data.email ∧ d.password = data.password ∧
      (st.image = none → d.avatar = none) ∧
      (∀ file res, st.image = some file → api.uploadFile file = .ok res →
        d.avatar = orElse res.location res.uri)) ∧
    (∀ res : FileRes,
      (∀ l, res.location = some l → l ≠ "" → orElse res.location res.uri = some l) ∧
      (res.location = none ∨ res.location = some "" →
        orElse res.location res.uri = res.uri)) := by
  obtain ⟨mid, htrace, hmid, hreg, hup, hdata, hone⟩ := onSubmit_trace api st data
  rw [htrace]
  refine ⟨rfl, ?_, rfl, ?_, ?_, ?_, ?_, ?_, ?_, ?_⟩
  · rw [flagAfter_cons_set, flagAfter_append, flagAfter_of_no_set mid true hmid]
    rfl
  · rw [← List.cons_append, List.getLast?_append]
    rfl
  · intro pre e post hsplit hcall
    cases pre with
    | nil =>
      simp only [List.nil_append, List.cons.injEq] at hsplit
      rw [← hsplit.1] at hcall
      exact absurd hcall (by decide)
    | cons x pre' =>
      simp only [List.cons_append, List.cons.injEq] at hsplit
      obtain ⟨hx, hrest⟩ := hsplit
      rw [← hx, flagAfter_cons_set]
      apply flagAfter_of_no_set
      rcases List.append_eq_append_iff.1 hrest with ⟨a', _, h2⟩ | ⟨c', h1, _⟩
      · exfalso
        cases a' with
        | nil =>
          simp only [List.nil_append, List.cons.injEq] at h2
          rw [← h2.1] at hcall
          exact absurd hcall (by decide)
        | cons z zs =>
          have hl := congrArg List.length h2
          simp only [List.length_singleton, List.cons_append, List.length_cons,
            List.length_append, List.length_nil] at hl
          omega
      · intro y hy
        have hym : y ∈ mid := by
          rw [h1]
          exact List.mem_append_left _ hy
        exact hmid y hym
  · have : (Effect.setSubmitting true :: (mid ++ [.setSubmitting false])).countP
        Effect.isRegister = mid.countP Effect.isRegister := by
      simp [List.countP_cons, List.countP_append, Effect.isRegister]
    rw [this]
    exact hreg
  · have : (Effect.setSubmitting true :: (mid ++ [.setSubmitting false])).countP
        Effect.isUpload = mid.countP Effect.isUpload := by
      simp [List.countP_cons, List.countP_append, Effect.isUpload]
    rw [this]
    exact hup
  · intro h
    have : (Effect.setSubmitting true :: (mid ++ [.setSubmitting false])).countP
        Effect.isRegister = mid.countP Effect.isRegister := by
      simp [List.countP_cons, List.countP_append, Effect.isRegister]
    rw [this]
    exact hone h
  · intro d hd
    apply hdata d
    simp only [List.mem_cons, List.mem_append, List.mem_singleton] at hd
    rcases hd with h | h | h
    · exact absurd h (by simp)
    · exact h
    · rcases h with h | h
      · exact absurd h (by simp)
      · exact absurd h (List.not_mem_nil _)
  · intro res
    constructor
    · intro l hl hne
      have ht : Js.truthyStr l = true := by
        cases hd : l.data with
        | nil => exact absurd (String.ext hd) hne
        | cons c cs => simp [Js.truthyStr, hd]
      simp [orElse, hl, ht]
    · rintro (h | h)
      · simp [orElse, h]
      · simp [orElse, h, Js.truthyStr]

end Register2

/-! ## Product: closing the modal -/

namespace Product

/-- C24: from any state `handleModalClose` sets `showModal` to false, `image` and `preview`
to null and resets the form values, and leaves `search`, `previewProduct` and `totalData`
unchanged; applied twice it gives the same state as applied once; and after a successful
save the page is in this closed state. -/
theorem handleModalClose_spec (st : State) :
    (handleModalClose st).1.showModal = false ∧
    (handleModalClose st).1.image = none ∧
    (handleModalClose st).1.preview = none ∧
    (handleModalClose st).1.form = FormValues.empty ∧
    Effect.resetForm ∈ (handleModalClose st).2 ∧
    (handleModalClose st).1.search = st.search ∧
    (handleModalClose st).1.previewProduct = st.previewProduct ∧
    (handleModalClose st).1.totalData = st.totalData ∧
    (handleModalClose (handleModalClose st).1).1 = (handleModalClose st).1 ∧
    (∀ (api : Api) (data : FormValues) (effects : List Effect) (thumbnailUri : Option String),
      resolveThumbnail api st = .resolved effects thumbnailUri →
      api.createProduct (payloadOf data thumbnailUri) = .ok () →
      (handleCreateProduct api st data).1 = (handleModalClose st).1 ∧
      (handleCreateProduct api st data).1.showModal = false ∧
      (handleCreateProduct api st data).1.image = none ∧
      (handleCreateProduct api st data).1.preview = none ∧
      (handleCreateProduct api st data).1.form = FormValues.empty) := by
  refine ⟨rfl, rfl, rfl, rfl, ?_, rfl, rfl, rfl, rfl, ?_⟩
  · simp [handleModalClose]
  · intro api data effects thumbnailUri hres hok
    have h : (handleCreateProduct api st data).1 = (handleModalClose st).1 := by
      simp [handleCreateProduct, hres, hok]
    rw [h]
    exact ⟨rfl, rfl, rfl, rfl, rfl⟩

end Product

/-! ## ProductDetail: the quantity input -/

namespace ProductDetail

/-- The value of a run of digits is its value in base ten, most significant digit
first. -/
theorem digitsValue_eq_ofDigits (ds : List Char) :
    digitsValue ds = Nat.ofDigits 10 ((ds.map (fun c => c.toNat - 48)).reverse) := by
  have h : ∀ (l : List Char) (acc : Nat),
      l.foldl (fun acc c => 10 * acc + (c.toNat - 48)) acc =
        Nat.ofDigits 10 ((l.map (fun c => c.toNat - 48)).reverse) + 10 ^ l.length * acc := by
    intro l
    induction l with
    | nil => intro acc; simp
    | cons c cs ih =>
      intro acc
      rw [List.foldl_cons, ih]
      simp only [List.map_cons, List.reverse_cons, Nat.ofDigits_append, List.length_reverse,
        List.length_map, Nat.ofDigits_singleton, List.length_cons]
      ring
  unfold digitsValue
  rw [h]
  simp

theorem binaryExponent_succ (fuel n : Nat) :
    binaryExponent (fuel + 1) n =
      if n < 2 ^ 53 then 0 else binaryExponent fuel (n / 2) + 1 := rfl

theorem binaryExponent_small (n : Nat) (h : n < 2 ^ 53) : binaryExponent n n = 0 := by
  cases n with
  | zero => rfl
  | succ k => rw [binaryExponent_succ, if_pos h]

theorem binaryExponent_quotient (fuel : Nat) : ∀ n : Nat,
    0 < binaryExponent fuel n → 2 ^ 52 ≤ n / 2 ^ binaryExponent fuel n := by
  induction fuel with
  | zero =>
    intro n h
    exact absurd h (Nat.lt_irrefl 0)
  | succ fuel ih =>
    intro n h
    by_cases hn : n < 2 ^ 53
    · rw [binaryExponent_succ, if_pos hn] at h
      exact absurd h (Nat.lt_irrefl 0)
    · rw [binaryExponent_succ, if_neg hn]
      have hpow : ∀ k : Nat, 2 ^ (k + 1) = 2 * 2 ^ k := fun k => by ring
      rw [hpow (binaryExponent fuel (n / 2)), ← Nat.div_div_eq_div_mul]
      by_cases h0 : 0 < binaryExponent fuel (n / 2)
      · exact ih (n / 2) h0
      · have hz : binaryExponent fuel (n / 2) = 0 := by omega
        rw [hz, pow_zero, Nat.div_one]
        have hn' : 2 ^ 53 ≤ n := not_lt.1 hn
        omega

theorem toDouble_small (n : Nat) (h : n < 2 ^ 53) : toDouble n = some n := by
  unfold toDouble
  rw [binaryExponent_small n h]
  simp [Nat.mod_one]

theorem toDouble_large (n m : Nat) (h : 2 ^ 53 ≤ n) (hm : toDouble n = some m) :
    2 ^ 53 ≤ m := by
  have hpos : 0 < binaryExponent n n := by
    cases n with
    | zero => simp at h
    | succ k =>
      have : ¬ k + 1 < 2 ^ 53 := by omega
      rw [binaryExponent_succ, if_neg this]
      exact Nat.succ_pos _
  have hq := binaryExponent_quotient n n hpos
  have h2 : 2 ≤ 2 ^ binaryExponent n n := by
    calc 2 = 2 ^ 1 := by norm_num
      _ ≤ 2 ^ binaryExponent n n := Nat.pow_le_pow_right (by norm_num) hpos
  have hbase : 2 ^ 53 ≤ n / 2 ^ binaryExponent n n * 2 ^ binaryExponent n n := by
    calc 2 ^ 53 = 2 ^ 52 * 2 := by norm_num
      _ ≤ n / 2 ^ binaryExponent n n * 2 ^ binaryExponent n n := Nat.mul_le_mul hq h2
  unfold toDouble at hm
  simp only at hm
  split_ifs at hm with h1 h3
  · simp only [Option.some.injEq] at hm
    rw [← hm]
    exact le_trans hbase (Nat.mul_le_mul_right _ (Nat.le_succ _))
  · simp only [Option.some.injEq] at hm
    rw [← hm]
    exact hbase

/-- With a stock of at most 2^53 the rounding of `Number(...)` does not show: the clamped
quantity is the one of the exact value. -/
theorem clampNumber_toDouble (stock : Int) (n : Nat) (hstock : stock ≤ 2 ^ 53) :
    clampNumber stock (toDouble n) = clampQty stock n := by
  have hp : (1 : Int) ≤ 2 ^ 53 := by norm_num
  have hmax : max stock 1 ≤ 2 ^ 53 := max_le hstock hp
  by_cases h : n < 2 ^ 53
  · rw [toDouble_small n h]
    rfl
  · have hn : 2 ^ 53 ≤ n := not_lt.1 h
    have hnz : (2 : Int) ^ 53 ≤ (n : Int) := by exact_mod_cast hn
    have hexact : clampQty stock n = max stock 1 := by
      unfold clampQty
      rw [max_eq_left (le_trans hp hnz)]
      exact min_eq_right (le_trans hmax hnz)
    rw [hexact]
    cases hd : toDouble n with
    | none => rfl
    | some m =>
      have hm : (2 : Int) ^ 53 ≤ (m : Int) := by exact_mod_cast toDouble_large n m hn hd
      simp only [clampNumber, clampQty]
      rw [max_eq_left (le_trans hp hm)]
      exact min_eq_right (le_trans hmax hm)

/-- C21 (what the code does above 2^53): with a stock of 9007199254740994 the text
"9007199254740993" sets the quantity to 9007199254740992, the double nearest to the typed
number, while `clampQty` of the decimal value of the text is 9007199254740993. -/
theorem onQtyChange_rounds :
    onQtyChange 9007199254740994 "9007199254740993" = 9007199254740992 ∧
    clampQty 9007199254740994 9007199254740993 = 9007199254740993 ∧
    onQtyChange 9007199254740994 "9007199254740993" ≠
      clampQty 9007199254740994 (digitsValue (onlyDigits "9007199254740993")) := by
  decide

/-- C21, amended: for a stock of at most 2^53 and every text typed into the quantity input,
`onQtyChange` sets `qty` to `clampQty(n)`, where `n` is the decimal value of the text with
every non-digit character removed, or 1 when no digit remains.  For every stock the result
lies between 1 and `max(stock, 1)`; a sign or a decimal point is dropped, not interpreted
("-5" is read as 5, "1.5" as 15); and "0" yields 1. -/
theorem onQtyChange_spec (stock : Int) (value : String) (hstock : stock ≤ 2 ^ 53) :
    onQtyChange stock value =
      clampQty stock
        (if onlyDigits value = [] then 1
         else ((Nat.ofDigits 10
          (((onlyDigits value).map (fun c => c.toNat - 48)).reverse) : Nat) : Int)) ∧
    onlyDigits value = value.data.filter (fun c => decide ('0' ≤ c ∧ c ≤ '9')) ∧
    (1 ≤ onQtyChange stock value ∧ onQtyChange stock value ≤ max stock 1) ∧
    onQtyChange stock "-5" = clampQty stock 5 ∧
    onQtyChange stock "1.5" = clampQty stock 15 ∧
    onQtyChange stock "0" = 1 ∧
    onQtyChange stock "" = 1 ∧
    onQtyChange stock "abc" = 1 := by
  have hexact : ∀ v : String, onQtyChange stock v =
      clampQty stock (if onlyDigits v = [] then 1 else (digitsValue (onlyDigits v) : Int)) := by
    intro v
    unfold onQtyChange
    cases h : onlyDigits v with
    | nil => rfl
    | cons c cs =>
      simp only [List.isEmpty_cons, Bool.false_eq_true, if_false]
      rw [clampNumber_toDouble stock _ hstock]
      simp
  refine ⟨?_, ?_, onQtyChange_range _ _, ?_, ?_, ?_, ?_, ?_⟩
  · rw [hexact, digitsValue_eq_ofDigits]
  · unfold onlyDigits
    apply List.filter_congr
    intro c _
    simp only [isDigit, Char.le_def, decide_eq_decide]
    rfl
  · have : onlyDigits "-5" = ['5'] := by decide
    rw [hexact, this]
    simp [digitsValue]
  · have : onlyDigits "1.5" = ['1', '5'] := by decide
    rw [hexact, this]
    simp [digitsValue]
  · have : onlyDigits "0" = ['0'] := by decide
    rw [hexact, this]
    simp [digitsValue, clampQty]
  · have : onlyDigits "" = [] := by decide
    rw [hexact, this]
    simp [clampQty]
  · have : onlyDigits "abc" = [] := by decide
    rw [hexact, this]
    simp [clampQty]

theorem onQtyChange_spec_witness :
    onQtyChange 50 "-5" = clampQty 50 5 ∧ onQtyChange 50 "1.5" = clampQty 50 15 ∧
    onQtyChange 50 "0" = 1 :=
  ⟨(onQtyChange_spec 50 "-5" (by norm_num)).2.2.2.1,
   (onQtyChange_spec 50 "1.5" (by norm_num)).2.2.2.2.1,
   (onQtyChange_spec 50 "0" (by norm_num)).2.2.2.2.2.1⟩

end ProductDetail
